import Mathlib

/-!
# pic-ture: cube hidden-surface rendering (`mainwindow.cpp`)

A shallow embedding of the rendering core of `MainWindow`:
`initCube`, `drawCube`, `calculateVisibility`, `calculateAlpha`,
`calculateNormal`, `updateCube` and `keyPressEvent`.

Conventions of the embedding

* C++ `float` is an exact ordered field `K` (`ℚ` for evaluation, `ℝ` where a
  square root is taken).  The float literals `-0.3f`, `0.3f`, `1.0f`, `5.0f`,
  `360.0f` are the exact numbers `-3/10`, `3/10`, `1`, `5`, `360`.
* The functions of `<cmath>` used by Qt (`sqrt`, `sin`, `cos`) are passed in a
  `MathLib K` record; `realMath` is the instance over `ℝ`.
* `std::vector<T>` is `List T`; `operator[]` out of range (undefined behaviour
  in C++) is `none`.
* The painter is modelled by the list of faces it is asked to paint, in order.
-/

namespace PicTure

/-! ## Scalars and the math library -/

/-- The `<cmath>` functions the program reaches through Qt. `sin` and `cos` take radians,
`pi` is the constant used by `qDegreesToRadians`. -/
structure MathLib (K : Type) where
  sqrt : K → K
  sin : K → K
  cos : K → K
  pi : K

/-- The `static_cast<int>` of a float: truncation toward zero. -/
def truncToInt {K : Type} [LinearOrderedField K] [FloorRing K] (x : K) : Int :=
  if 0 ≤ x then ⌊x⌋ else ⌈x⌉

/-! ## `QVector3D` -/

/-- Qt's `QVector3D`: three float coordinates. -/
structure QVector3D (K : Type) where
  x : K
  y : K
  z : K
deriving DecidableEq, Repr

namespace QVector3D

variable {K : Type} [LinearOrderedField K]

/-- `QVector3D()` : the null vector. -/
def zero : QVector3D K := ⟨0, 0, 0⟩

/-- `operator+`. -/
def add (a b : QVector3D K) : QVector3D K := ⟨a.x + b.x, a.y + b.y, a.z + b.z⟩

/-- `operator-`. -/
def sub (a b : QVector3D K) : QVector3D K := ⟨a.x - b.x, a.y - b.y, a.z - b.z⟩

/-- `operator/` by a scalar (also `operator/=`). -/
def divScalar (a : QVector3D K) (d : K) : QVector3D K := ⟨a.x / d, a.y / d, a.z / d⟩

/-- `QVector3D::dotProduct`. -/
def dotProduct (a b : QVector3D K) : K := a.x * b.x + a.y * b.y + a.z * b.z

/-- `QVector3D::crossProduct`. -/
def crossProduct (a b : QVector3D K) : QVector3D K :=
  ⟨a.y * b.z - a.z * b.y, a.z * b.x - a.x * b.z, a.x * b.y - a.y * b.x⟩

/-- `QVector3D::lengthSquared`. -/
def lengthSquared (a : QVector3D K) : K := a.x * a.x + a.y * a.y + a.z * a.z

/-- `QVector3D::length`. -/
def length (M : MathLib K) (a : QVector3D K) : K := M.sqrt (lengthSquared a)

/-- `QVector3D::normalized` (and the in-place `normalize`): a null vector stays null,
any other vector is divided by its length. -/
def normalized (M : MathLib K) (a : QVector3D K) : QVector3D K :=
  let len := length M a
  if len = 0 then zero else divScalar a len

end QVector3D

/-! ## `calculateAlpha` -/

section Alpha

variable {K : Type} [LinearOrderedField K] [FloorRing K]

/-- `MainWindow::calculateAlpha`. -/
def calculateAlpha (visibility : K) : Int :=
  let minVisibility : K := -(3 / 10)
  let maxVisibility : K := 3 / 10
  if visibility ≤ minVisibility then
    0
  else if visibility ≥ maxVisibility then
    255
  else
    let t := (visibility - minVisibility) / (maxVisibility - minVisibility)
    truncToInt (t * 255)

end Alpha

/-! ## `QMatrix4x4` -/

/-- Qt's `QMatrix4x4`, entry `m r c` being row `r`, column `c`. -/
abbrev QMatrix4x4 (K : Type) := Matrix (Fin 4) (Fin 4) K

namespace QMatrix4x4

variable {K : Type} [LinearOrderedField K]

/-- The default-constructed matrix: the identity. -/
def identity : QMatrix4x4 K := 1

/-- `QMatrix4x4::translate(x, y, z)`: multiplies on the right by a translation. -/
def translate (m : QMatrix4x4 K) (x y z : K) : QMatrix4x4 K :=
  m * !![1, 0, 0, x; 0, 1, 0, y; 0, 0, 1, z; 0, 0, 0, 1]

/-- `QMatrix4x4::rotate(angle, x, y, z)` for a unit axis `(x, y, z)` (every call of the program
passes a coordinate axis): nothing happens for `angle == 0`, otherwise the matrix is multiplied on
the right by the rotation of `angle` degrees about the axis. -/
def rotate (M : MathLib K) (m : QMatrix4x4 K) (angle x y z : K) : QMatrix4x4 K :=
  if angle = 0 then m
  else
    let a := angle * (M.pi / 180)
    let c := M.cos a
    let s := M.sin a
    let ic := 1 - c
    m * !![x * x * ic + c, x * y * ic - z * s, x * z * ic + y * s, 0;
           y * x * ic + z * s, y * y * ic + c, y * z * ic - x * s, 0;
           x * z * ic - y * s, y * z * ic + x * s, z * z * ic + c, 0;
           0, 0, 0, 1]

/-- `QMatrix4x4::map(const QVector3D&)`: the point is extended by `w = 1`, multiplied, and
divided by the resulting `w` unless that is `1`. -/
def map (m : QMatrix4x4 K) (v : QVector3D K) : QVector3D K :=
  let x := v.x * m 0 0 + v.y * m 0 1 + v.z * m 0 2 + m 0 3
  let y := v.x * m 1 0 + v.y * m 1 1 + v.z * m 1 2 + m 1 3
  let z := v.x * m 2 0 + v.y * m 2 1 + v.z * m 2 2 + m 2 3
  let w := v.x * m 3 0 + v.y * m 3 1 + v.z * m 3 2 + m 3 3
  if w = 1 then ⟨x, y, z⟩ else ⟨x / w, y / w, z / w⟩

end QMatrix4x4

/-! ## The window state -/

/-- The data members of `MainWindow` the rendering core reads or writes; `timerActive` is
`timer->isActive()`. -/
structure MainWindow (K : Type) where
  vertices : List (QVector3D K)
  faces : List (List Int)
  angleX : K
  angleY : K
  angleZ : K
  timerActive : Bool

/-- One `drawPath` call of `drawCube`: the loop variables `visibility` and `faceIndex` of the
iteration that issued it, the polygon path, the base colour and the alpha of the brush. -/
structure PaintedFace (K : Type) where
  faceIndex : Nat
  visibility : K
  path : List (K × K)
  color : Nat × Nat × Nat
  alpha : Int

section Core

variable {K : Type} [LinearOrderedField K]

/-- `MainWindow::initCube`. -/
def initCube (w : MainWindow K) : MainWindow K :=
  let size : K := 100
  { w with
    vertices := [
      ⟨-size, -size, -size⟩,
      ⟨size, -size, -size⟩,
      ⟨size, size, -size⟩,
      ⟨-size, size, -size⟩,
      ⟨-size, -size, size⟩,
      ⟨size, -size, size⟩,
      ⟨size, size, size⟩,
      ⟨-size, size, size⟩]
    faces := [
      [0, 3, 2, 1],
      [4, 5, 6, 7],
      [0, 4, 7, 3],
      [1, 2, 6, 5],
      [0, 1, 5, 4],
      [3, 7, 6, 2]] }

/-- The constructor `MainWindow::MainWindow`: the angles start at `0.0f` (member initialisers),
`initCube` fills the mesh and the timer is started. -/
def MainWindow.new : MainWindow K :=
  initCube { vertices := [], faces := [], angleX := 0, angleY := 0, angleZ := 0,
             timerActive := true }

/-- `std::vector::operator[]` with an `int` index: defined only for `0 ≤ idx < size`. -/
def vectorAt {α : Type} (xs : List α) (idx : Int) : Option α :=
  if 0 ≤ idx then xs[idx.toNat]? else none

/-- `MainWindow::calculateNormal`. -/
def calculateNormal (M : MathLib K) (faceVertices : List (QVector3D K)) :
    Option (QVector3D K) := do
  let p0 ← vectorAt faceVertices 0
  let p1 ← vectorAt faceVertices 1
  let p2 ← vectorAt faceVertices 2
  let v1 := QVector3D.sub p1 p0
  let v2 := QVector3D.sub p2 p0
  pure (QVector3D.normalized M (QVector3D.crossProduct v1 v2))

/-- The view point of `calculateVisibility`. -/
def viewPoint : QVector3D K := ⟨0, 0, 1000⟩

/-- The sum `center += v` over the face vertices, then `center /= faceVertices.size()`. -/
def faceCenter (faceVertices : List (QVector3D K)) : QVector3D K :=
  QVector3D.divScalar (faceVertices.foldl QVector3D.add ⟨0, 0, 0⟩) (faceVertices.length : K)

/-- `MainWindow::calculateVisibility`. -/
def calculateVisibility (M : MathLib K) (faceVertices : List (QVector3D K)) : Option K := do
  let normal ← calculateNormal M faceVertices
  let center := faceCenter faceVertices
  let viewVector := QVector3D.normalized M (QVector3D.sub viewPoint center)
  pure (QVector3D.dotProduct normal viewVector)

/-- `MainWindow::isFaceVisible`. -/
def isFaceVisible (M : MathLib K) (faceVertices : List (QVector3D K)) : Option Bool := do
  let visibility ← calculateVisibility M faceVertices
  pure (decide (visibility > 0))

/-- The inner loop `for (int idx : face) faceVertices.push_back(transformedVertices[idx])`. -/
def gatherFace (transformedVertices : List (QVector3D K)) :
    List Int → Option (List (QVector3D K))
  | [] => some []
  | idx :: rest => do
    let v ← vectorAt transformedVertices idx
    let vs ← gatherFace transformedVertices rest
    pure (v :: vs)

/-- The first loop of `drawCube`, from face number `i` on: one `(visibility, i)` pair per
face. -/
def faceVisibilityLoop (M : MathLib K) (transformedVertices : List (QVector3D K)) :
    Nat → List (List Int) → Option (List (K × Nat))
  | _, [] => some []
  | i, face :: rest => do
    let faceVertices ← gatherFace transformedVertices face
    let visibility ← calculateVisibility M faceVertices
    let more ← faceVisibilityLoop M transformedVertices (i + 1) rest
    pure ((visibility, i) :: more)

/-- `operator<` of `std::pair<float, int>`. -/
def pairLess (a b : K × Nat) : Prop :=
  a.1 < b.1 ∨ (¬ b.1 < a.1 ∧ a.2 < b.2)

instance pairLess.decidable (a b : K × Nat) : Decidable (pairLess a b) := by
  unfold pairLess; infer_instance

/-- The order `std::sort` establishes between an earlier and a later element: the later one is
not less than the earlier one. -/
def pairNotAfter (a b : K × Nat) : Prop := ¬ pairLess b a

instance pairNotAfter.decidable (a b : K × Nat) : Decidable (pairNotAfter a b) := by
  unfold pairNotAfter; infer_instance

/-- `std::sort(faceVisibility.begin(), faceVisibility.end())`: the rearrangement of the input
into ascending `operator<` order (computed here by insertion). -/
def stdSort (faceVisibility : List (K × Nat)) : List (K × Nat) :=
  List.insertionSort pairNotAfter faceVisibility

/-- The `switch (faceIndex)` of `drawCube`. -/
def faceColor (faceIndex : Nat) : Nat × Nat × Nat :=
  match faceIndex with
  | 0 => (255, 0, 0)
  | 1 => (0, 255, 0)
  | 2 => (0, 0, 255)
  | 3 => (255, 255, 0)
  | 4 => (0, 255, 255)
  | 5 => (255, 0, 255)
  | _ => (128, 128, 128)

/-- The path built by `moveTo(faceVertices[0])` and `lineTo(faceVertices[i])` for `i ≥ 1`. -/
def facePath (faceVertices : List (QVector3D K)) : Option (List (K × K)) := do
  let first ← vectorAt faceVertices 0
  pure ((first.x, first.y) :: (faceVertices.drop 1).map (fun v => (v.x, v.y)))

/-- The second loop of `drawCube` over the sorted pairs: the faces handed to the painter. -/
def paintLoop [FloorRing K] (transformedVertices : List (QVector3D K)) (faces : List (List Int)) :
    List (K × Nat) → Option (List (PaintedFace K))
  | [] => some []
  | (visibility, faceIndex) :: rest => do
    let face ← faces[faceIndex]?
    let faceVertices ← gatherFace transformedVertices face
    if visibility > -(3 / 10) then
      let path ← facePath faceVertices
      let alpha := calculateAlpha visibility
      let more ← paintLoop transformedVertices faces rest
      pure (⟨faceIndex, visibility, path, faceColor faceIndex, alpha⟩ :: more)
    else
      paintLoop transformedVertices faces rest

/-- The matrix of `drawCube` for a widget of the given `width()` and `height()`. -/
def drawMatrix (M : MathLib K) (width height : Int) (w : MainWindow K) : QMatrix4x4 K :=
  let matrix := QMatrix4x4.identity
  let matrix := QMatrix4x4.translate matrix ((Int.tdiv width 2 : Int) : K)
    ((Int.tdiv height 2 : Int) : K) 0
  let matrix := QMatrix4x4.rotate M matrix w.angleX 1 0 0
  let matrix := QMatrix4x4.rotate M matrix w.angleY 0 1 0
  QMatrix4x4.rotate M matrix w.angleZ 0 0 1

/-- The `transformedVertices` of `drawCube`. -/
def transformVertices (M : MathLib K) (width height : Int) (w : MainWindow K) :
    List (QVector3D K) :=
  w.vertices.map (QMatrix4x4.map (drawMatrix M width height w))

/-- `MainWindow::drawCube`: the faces painted, in painting order. -/
def drawCube [FloorRing K] (M : MathLib K) (width height : Int) (w : MainWindow K) :
    Option (List (PaintedFace K)) := do
  let transformedVertices := transformVertices M width height w
  let faceVisibility ← faceVisibilityLoop M transformedVertices 0 w.faces
  paintLoop transformedVertices w.faces (stdSort faceVisibility)

/-- `MainWindow::updateCube`. -/
def updateCube (w : MainWindow K) : MainWindow K :=
  let w := { w with angleY := w.angleY + 1 }
  if w.angleY ≥ 360 then { w with angleY := 0 } else w

/-! ### Key codes of `Qt::Key` -/

/-- `Qt::Key_W`. -/
def Key_W : Int := 0x57
/-- `Qt::Key_S`. -/
def Key_S : Int := 0x53
/-- `Qt::Key_A`. -/
def Key_A : Int := 0x41
/-- `Qt::Key_D`. -/
def Key_D : Int := 0x44
/-- `Qt::Key_Q`. -/
def Key_Q : Int := 0x51
/-- `Qt::Key_E`. -/
def Key_E : Int := 0x45
/-- `Qt::Key_Space`. -/
def Key_Space : Int := 0x20
/-- `Qt::Key_R`. -/
def Key_R : Int := 0x52

/-- `MainWindow::keyPressEvent` on the key code `event->key()`. -/
def keyPressEvent (key : Int) (w : MainWindow K) : MainWindow K :=
  if key = Key_W then { w with angleX := w.angleX - 5 }
  else if key = Key_S then { w with angleX := w.angleX + 5 }
  else if key = Key_A then { w with angleY := w.angleY - 5 }
  else if key = Key_D then { w with angleY := w.angleY + 5 }
  else if key = Key_Q then { w with angleZ := w.angleZ - 5 }
  else if key = Key_E then { w with angleZ := w.angleZ + 5 }
  else if key = Key_Space then
    if w.timerActive then { w with timerActive := false } else { w with timerActive := true }
  else if key = Key_R then { w with angleX := 0, angleY := 0, angleZ := 0 }
  else w

/-- The face invariant of the data model: every face is a sequence of exactly four vertex
indices, each of them a valid index into a vertex set of `vertexCount` elements. -/
def faceInvariant (vertexCount : Nat) (faces : List (List Int)) : Prop :=
  ∀ face ∈ faces, face.length = 4 ∧ ∀ idx ∈ face, 0 ≤ idx ∧ idx < (vertexCount : Int)

/-- What `drawCube` hands to `std::sort` when face `i` has the score `scores[i]`: the pairs
`(scores[i], i)` in face order. -/
def scorePairs (scores : List K) : List (K × Nat) :=
  scores.zip (List.range scores.length)

end Core

/-! ## Instances of the scalar type -/

/-- The math library over the reals. -/
noncomputable def realMath : MathLib ℝ where
  sqrt := Real.sqrt
  sin := Real.sin
  cos := Real.cos
  pi := Real.pi

/-! ## Theorems -/

section AlphaFacts

variable {K : Type} [LinearOrderedField K] [FloorRing K]

theorem calculateAlpha_low (s : K) (h : s ≤ -(3 / 10)) : calculateAlpha s = 0 := by
  simp [calculateAlpha, h]

theorem calculateAlpha_high (s : K) (h : 3 / 10 ≤ s) : calculateAlpha s = 255 := by
  have h1 : ¬ s ≤ -(3 / 10) := by
    intro h2
    have : (3 / 10 : K) ≤ -(3 / 10) := le_trans h h2
    norm_num at this
  simp [calculateAlpha, h1, h]

theorem calculateAlpha_mid (s : K) (h1 : -(3 / 10) < s) (h2 : s < 3 / 10) :
    calculateAlpha s = ⌊(s - -(3 / 10)) / (3 / 10 - -(3 / 10)) * 255⌋ := by
  have hpos : (0 : K) ≤ (s - -(3 / 10)) / (3 / 10 - -(3 / 10)) * 255 := by
    apply mul_nonneg _ (by norm_num)
    apply div_nonneg <;> linarith
  simp only [calculateAlpha, not_le.mpr h1, not_le.mpr h2, ge_iff_le, truncToInt, hpos, if_true,
    if_false]

theorem calculateAlpha_mid_range (s : K) (h1 : -(3 / 10) < s) (h2 : s < 3 / 10) :
    0 ≤ calculateAlpha s ∧ calculateAlpha s < 255 := by
  rw [calculateAlpha_mid s h1 h2]
  have hden : (3 / 10 - -(3 / 10) : K) = 3 / 5 := by norm_num
  rw [hden]
  constructor
  · apply Int.floor_nonneg.mpr
    apply mul_nonneg _ (by norm_num)
    apply div_nonneg <;> linarith
  · rw [Int.floor_lt]
    have : (s - -(3 / 10)) / (3 / 5) * 255 = (s + 3 / 10) * 425 := by ring
    rw [this]
    push_cast
    linarith

theorem calculateAlpha_range (s : K) : 0 ≤ calculateAlpha s ∧ calculateAlpha s ≤ 255 := by
  rcases le_or_lt s (-(3 / 10)) with h | h
  · rw [calculateAlpha_low s h]; decide
  · rcases le_or_lt (3 / 10) s with h' | h'
    · rw [calculateAlpha_high s h']; decide
    · have := calculateAlpha_mid_range s h h'
      omega

theorem calculateAlpha_mono (a b : K) (hab : a ≤ b) : calculateAlpha a ≤ calculateAlpha b := by
  rcases le_or_lt a (-(3 / 10)) with ha | ha
  · rw [calculateAlpha_low a ha]; exact (calculateAlpha_range b).1
  · rcases le_or_lt (3 / 10) b with hb | hb
    · rw [calculateAlpha_high b hb]; exact (calculateAlpha_range a).2
    · have ha' : a < 3 / 10 := lt_of_le_of_lt hab hb
      have hb' : -(3 / 10) < b := lt_of_lt_of_le ha hab
      rw [calculateAlpha_mid a ha ha', calculateAlpha_mid b hb' hb]
      apply Int.floor_mono
      apply mul_le_mul_of_nonneg_right _ (by norm_num)
      apply div_le_div_of_nonneg_right _ (by norm_num)
      linarith

/-- C1: `calculateAlpha` is monotonically non-decreasing in the score, is `0` for every
score `≤ -0.3` and `255` for every score `≥ 0.3`, always lies in `[0, 255]`, and strictly between
the thresholds is the truncation of `255 * (score + 0.3) / 0.6`. -/
theorem calculateAlpha_monotone_clamped :
    (∀ a b : K, a ≤ b → calculateAlpha a ≤ calculateAlpha b) ∧
    (∀ s : K, s ≤ -(3 / 10) → calculateAlpha s = 0) ∧
    (∀ s : K, 3 / 10 ≤ s → calculateAlpha s = 255) ∧
    (∀ s : K, 0 ≤ calculateAlpha s ∧ calculateAlpha s ≤ 255) ∧
    (∀ s : K, -(3 / 10) < s → s < 3 / 10 →
      calculateAlpha s = truncToInt (255 * (s + 3 / 10) / (6 / 10))) := by
  refine ⟨calculateAlpha_mono, calculateAlpha_low, calculateAlpha_high, calculateAlpha_range, ?_⟩
  intro s h1 h2
  have hpos : (0 : K) ≤ 255 * (s + 3 / 10) / (6 / 10) := by
    apply div_nonneg _ (by norm_num)
    apply mul_nonneg (by norm_num)
    linarith
  rw [calculateAlpha_mid s h1 h2]
  simp only [truncToInt, hpos, if_true]
  congr 1
  ring

end AlphaFacts

/-- Witness of C1 over `ℚ`: the scores `-1/2 ≤ 0 ≤ 1/10 ≤ 1/2` have alphas `0, 127, 170, 255`. -/
theorem calculateAlpha_monotone_clamped_witness :
    calculateAlpha (-1 / 2 : ℚ) = 0 ∧ calculateAlpha (0 : ℚ) = 127 ∧
    calculateAlpha (1 / 10 : ℚ) = 170 ∧ calculateAlpha (1 / 2 : ℚ) = 255 ∧
    calculateAlpha (0 : ℚ) ≤ calculateAlpha (1 / 10 : ℚ) := by
  have h := @calculateAlpha_monotone_clamped ℚ _ _
  refine ⟨h.2.1 _ (by norm_num), ?_, ?_, h.2.2.1 _ (by norm_num), h.1 _ _ (by norm_num)⟩
  · rw [h.2.2.2.2 0 (by norm_num) (by norm_num)]
    norm_num [truncToInt, Int.floor_eq_iff]
  · rw [h.2.2.2.2 _ (by norm_num) (by norm_num)]
    norm_num [truncToInt, Int.floor_eq_iff]

section RotationFacts

variable {K : Type} [LinearOrderedField K]

theorem updateCube_of_lt (w : MainWindow K) (h : w.angleY + 1 < 360) :
    updateCube w = { w with angleY := w.angleY + 1 } := by
  simp [updateCube, not_le.mpr h]

theorem updateCube_of_ge (w : MainWindow K) (h : 360 ≤ w.angleY + 1) :
    updateCube w = { w with angleY := 0 } := by
  simp [updateCube, h]

theorem updateCube_iterate (w : MainWindow K) (h0 : w.angleY = 0) :
    ∀ k : Nat, k < 360 → updateCube^[k] w = { w with angleY := (k : K) } := by
  intro k
  induction k with
  | zero =>
    intro _
    cases w
    simp_all
  | succ n ih =>
    intro hn
    have hlt : ((n : K) + 1 < 360) := by
      have : ((n + 1 : Nat) : K) < ((360 : Nat) : K) := Nat.cast_lt.mpr hn
      push_cast at this
      exact this
    rw [Function.iterate_succ_apply', ih (by omega), updateCube_of_lt _ hlt]
    simp

/-- C6: one tick of `updateCube` on a state with `0 ≤ angleY < 360` gives `angleY + 1` if that
is below `360` and `0` otherwise, keeps `angleY` in `[0, 360)` and leaves `angleX`, `angleZ`
unchanged; from `angleY = 0`, `k < 360` ticks give `angleY = k`, and 360 ticks give back the
starting state, hence the same transformed vertices. -/
theorem updateCube_keeps_angleY_in_range (w : MainWindow K)
    (h0 : 0 ≤ w.angleY) (h1 : w.angleY < 360) :
    (updateCube w).angleY = (if w.angleY + 1 < 360 then w.angleY + 1 else 0) ∧
    0 ≤ (updateCube w).angleY ∧ (updateCube w).angleY < 360 ∧
    (updateCube w).angleX = w.angleX ∧ (updateCube w).angleZ = w.angleZ ∧
    (w.angleY = 0 →
      (∀ k : Nat, k < 360 → (updateCube^[k] w).angleY = (k : K)) ∧
      (updateCube^[360] w).angleY = 0 ∧
      updateCube^[360] w = w ∧
      ∀ (M : MathLib K) (width height : Int),
        transformVertices M width height (updateCube^[360] w) =
          transformVertices M width height w) := by
  have hstep : (updateCube w).angleY = (if w.angleY + 1 < 360 then w.angleY + 1 else 0) ∧
      (updateCube w).angleX = w.angleX ∧ (updateCube w).angleZ = w.angleZ := by
    by_cases h : w.angleY + 1 < 360
    · simp [updateCube_of_lt w h, h]
    · simp [updateCube_of_ge w (not_lt.mp h), h]
  refine ⟨hstep.1, ?_, ?_, hstep.2.1, hstep.2.2, ?_⟩
  · rw [hstep.1]; split_ifs <;> linarith
  · rw [hstep.1]; split_ifs <;> linarith
  · intro hz
    have h360 : updateCube^[360] w = w := by
      have e : (360 : Nat) = 359 + 1 := rfl
      rw [e, Function.iterate_succ_apply', updateCube_iterate w hz 359 (by norm_num),
        updateCube_of_ge _ (by norm_num)]
      cases w
      simp_all
    refine ⟨fun k hk => ?_, ?_, h360, fun M width height => ?_⟩
    · rw [updateCube_iterate w hz k hk]
    · rw [h360, hz]
    · rw [h360]

/-- Witness of C6: the freshly constructed window over `ℚ` has `angleY = 0`. -/
theorem updateCube_keeps_angleY_in_range_witness :
    (updateCube (MainWindow.new : MainWindow ℚ)).angleY = 1 ∧
    (updateCube^[360] (MainWindow.new : MainWindow ℚ)).angleY = 0 := by
  have h := updateCube_keeps_angleY_in_range (MainWindow.new : MainWindow ℚ)
    (by simp [MainWindow.new, initCube]) (by simp [MainWindow.new, initCube])
  refine ⟨?_, (h.2.2.2.2.2 (by simp [MainWindow.new, initCube])).2.1⟩
  rw [h.1]
  norm_num [MainWindow.new, initCube]

/-- C7: the key-to-rotation mapping of `keyPressEvent`: `R` zeroes the three angles; `W`/`S`
change only `angleX` by `-5`/`+5`, `A`/`D` only `angleY`, `Q`/`E` only `angleZ`; `Space` and every
other key leave the three angles unchanged. -/
theorem keyPressEvent_rotation_table (w : MainWindow K) :
    ((keyPressEvent Key_R w).angleX = 0 ∧ (keyPressEvent Key_R w).angleY = 0 ∧
      (keyPressEvent Key_R w).angleZ = 0) ∧
    ((keyPressEvent Key_W w).angleX = w.angleX - 5 ∧ (keyPressEvent Key_W w).angleY = w.angleY ∧
      (keyPressEvent Key_W w).angleZ = w.angleZ) ∧
    ((keyPressEvent Key_S w).angleX = w.angleX + 5 ∧ (keyPressEvent Key_S w).angleY = w.angleY ∧
      (keyPressEvent Key_S w).angleZ = w.angleZ) ∧
    ((keyPressEvent Key_A w).angleX = w.angleX ∧ (keyPressEvent Key_A w).angleY = w.angleY - 5 ∧
      (keyPressEvent Key_A w).angleZ = w.angleZ) ∧
    ((keyPressEvent Key_D w).angleX = w.angleX ∧ (keyPressEvent Key_D w).angleY = w.angleY + 5 ∧
      (keyPressEvent Key_D w).angleZ = w.angleZ) ∧
    ((keyPressEvent Key_Q w).angleX = w.angleX ∧ (keyPressEvent Key_Q w).angleY = w.angleY ∧
      (keyPressEvent Key_Q w).angleZ = w.angleZ - 5) ∧
    ((keyPressEvent Key_E w).angleX = w.angleX ∧ (keyPressEvent Key_E w).angleY = w.angleY ∧
      (keyPressEvent Key_E w).angleZ = w.angleZ + 5) ∧
    ((keyPressEvent Key_Space w).angleX = w.angleX ∧
      (keyPressEvent Key_Space w).angleY = w.angleY ∧
      (keyPressEvent Key_Space w).angleZ = w.angleZ) ∧
    (∀ key : Int, key ≠ Key_W → key ≠ Key_S → key ≠ Key_A → key ≠ Key_D → key ≠ Key_Q →
      key ≠ Key_E → key ≠ Key_R →
      (keyPressEvent key w).angleX = w.angleX ∧ (keyPressEvent key w).angleY = w.angleY ∧
      (keyPressEvent key w).angleZ = w.angleZ) := by
  refine ⟨?_, ?_, ?_, ?_, ?_, ?_, ?_, ?_, ?_⟩
  · simp [keyPressEvent, Key_W, Key_S, Key_A, Key_D, Key_Q, Key_E, Key_Space, Key_R]
  · simp [keyPressEvent, Key_W, Key_S, Key_A, Key_D, Key_Q, Key_E, Key_Space, Key_R]
  · simp [keyPressEvent, Key_W, Key_S, Key_A, Key_D, Key_Q, Key_E, Key_Space, Key_R]
  · simp [keyPressEvent, Key_W, Key_S, Key_A, Key_D, Key_Q, Key_E, Key_Space, Key_R]
  · simp [keyPressEvent, Key_W, Key_S, Key_A, Key_D, Key_Q, Key_E, Key_Space, Key_R]
  · simp [keyPressEvent, Key_W, Key_S, Key_A, Key_D, Key_Q, Key_E, Key_Space, Key_R]
  · simp [keyPressEvent, Key_W, Key_S, Key_A, Key_D, Key_Q, Key_E, Key_Space, Key_R]
  · simp only [keyPressEvent, Key_W, Key_S, Key_A, Key_D, Key_Q, Key_E, Key_Space, Key_R]
    norm_num
    split_ifs <;> simp
  · intro key hW hS hA hD hQ hE hR
    simp only [keyPressEvent, hW, hS, hA, hD, hQ, hE, hR, if_false]
    split_ifs <;> simp

/-- Witness of C7: the key code `0` (no key of the table) on the fresh window over `ℚ`. -/
theorem keyPressEvent_rotation_table_witness :
    (keyPressEvent 0 (MainWindow.new : MainWindow ℚ)).angleX = 0 ∧
    (keyPressEvent 0 (MainWindow.new : MainWindow ℚ)).angleY = 0 ∧
    (keyPressEvent 0 (MainWindow.new : MainWindow ℚ)).angleZ = 0 :=
  (keyPressEvent_rotation_table (MainWindow.new : MainWindow ℚ)).2.2.2.2.2.2.2.2 0
    (by decide) (by decide) (by decide) (by decide) (by decide) (by decide) (by decide)

end RotationFacts

/-! ### The loops of `drawCube` return a result on a mesh with the face invariant -/

theorem vectorAt_some {α : Type} (xs : List α) (idx : Int) (h0 : 0 ≤ idx)
    (h1 : idx < (xs.length : Int)) : ∃ v, vectorAt xs idx = some v := by
  have hlt : idx.toNat < xs.length := by omega
  exact ⟨xs[idx.toNat], by simp [vectorAt, h0, List.getElem?_eq_getElem hlt]⟩

theorem gatherFace_some {K : Type} (tv : List (QVector3D K)) :
    ∀ face : List Int, (∀ idx ∈ face, 0 ≤ idx ∧ idx < (tv.length : Int)) →
      ∃ fv, gatherFace tv face = some fv ∧ fv.length = face.length := by
  intro face
  induction face with
  | nil => intro _; exact ⟨[], rfl, rfl⟩
  | cons idx rest ih =>
    intro h
    obtain ⟨v, hv⟩ := vectorAt_some tv idx (h idx (by simp)).1 (h idx (by simp)).2
    obtain ⟨vs, hvs, hlen⟩ := ih (fun j hj => h j (by simp [hj]))
    exact ⟨v :: vs, by simp [gatherFace, hv, hvs], by simp [hlen]⟩

theorem facePath_some {K : Type} (fv : List (QVector3D K)) (h : 1 ≤ fv.length) :
    ∃ path, facePath fv = some path := by
  obtain ⟨p0, h0⟩ := vectorAt_some fv 0 (by norm_num) (by omega)
  exact ⟨(p0.x, p0.y) :: (fv.drop 1).map (fun v => (v.x, v.y)), by simp [facePath, h0]⟩

section LoopFacts

variable {K : Type} [LinearOrderedField K]

theorem transformVertices_length (M : MathLib K) (width height : Int) (w : MainWindow K) :
    (transformVertices M width height w).length = w.vertices.length := by
  simp [transformVertices]

theorem calculateNormal_some (M : MathLib K) (fv : List (QVector3D K)) (h : 3 ≤ fv.length) :
    ∃ n, calculateNormal M fv = some n := by
  obtain ⟨p0, h0⟩ := vectorAt_some fv 0 (by norm_num) (by omega)
  obtain ⟨p1, h1⟩ := vectorAt_some fv 1 (by norm_num) (by omega)
  obtain ⟨p2, h2⟩ := vectorAt_some fv 2 (by norm_num) (by omega)
  exact ⟨QVector3D.normalized M ((p1.sub p0).crossProduct (p2.sub p0)),
    by simp [calculateNormal, h0, h1, h2]⟩

theorem calculateVisibility_some (M : MathLib K) (fv : List (QVector3D K))
    (h : 3 ≤ fv.length) : ∃ s, calculateVisibility M fv = some s := by
  obtain ⟨n, hn⟩ := calculateNormal_some M fv h
  exact ⟨n.dotProduct (QVector3D.normalized M (viewPoint.sub (faceCenter fv))),
    by simp [calculateVisibility, hn]⟩

theorem faceVisibilityLoop_some (M : MathLib K) (tv : List (QVector3D K)) :
    ∀ (faces : List (List Int)) (i : Nat), faceInvariant tv.length faces →
      ∃ scores : List K, scores.length = faces.length ∧
        faceVisibilityLoop M tv i faces = some (scores.zip (List.range' i scores.length)) := by
  intro faces
  induction faces with
  | nil => intro i _; exact ⟨[], rfl, by simp [faceVisibilityLoop]⟩
  | cons face rest ih =>
    intro i hinv
    obtain ⟨fv, hfv, hlen⟩ := gatherFace_some tv face (hinv face (by simp)).2
    obtain ⟨s, hs⟩ := calculateVisibility_some M fv (by rw [hlen, (hinv face (by simp)).1]; norm_num)
    obtain ⟨ss, hss, hloop⟩ := ih (i + 1) (fun f hf => hinv f (by simp [hf]))
    refine ⟨s :: ss, by simp [hss], ?_⟩
    simp [faceVisibilityLoop, hfv, hs, hloop, List.range'_succ]

theorem faceVisibilityLoop_scorePairs (M : MathLib K) (tv : List (QVector3D K))
    (faces : List (List Int)) (hinv : faceInvariant tv.length faces) :
    ∃ scores : List K, scores.length = faces.length ∧
      faceVisibilityLoop M tv 0 faces = some (scorePairs scores) := by
  obtain ⟨scores, hlen, h⟩ := faceVisibilityLoop_some M tv faces 0 hinv
  exact ⟨scores, hlen, by rw [h, scorePairs, List.range_eq_range']⟩

theorem paintLoop_some [FloorRing K] (tv : List (QVector3D K)) (faces : List (List Int))
    (hinv : faceInvariant tv.length faces) :
    ∀ l : List (K × Nat), (∀ p ∈ l, p.2 < faces.length) →
      ∃ painted, paintLoop tv faces l = some painted ∧
        painted.map (fun p => (p.visibility, p.faceIndex)) =
          l.filter (fun p => decide (-(3 / 10) < p.1)) ∧
        ∀ p ∈ painted, p.alpha = calculateAlpha p.visibility ∧
          p.color = faceColor p.faceIndex := by
  intro l
  induction l with
  | nil => intro _; exact ⟨[], rfl, rfl, by simp⟩
  | cons a rest ih =>
    intro h
    obtain ⟨visibility, faceIndex⟩ := a
    have hidx : faceIndex < faces.length := h (visibility, faceIndex) (by simp)
    have hface : faces[faceIndex]? = some faces[faceIndex] := List.getElem?_eq_getElem hidx
    have hmem : faces[faceIndex] ∈ faces := List.getElem_mem hidx
    obtain ⟨fv, hfv, hlen⟩ := gatherFace_some tv _ (hinv _ hmem).2
    obtain ⟨path, hpath⟩ := facePath_some fv (by rw [hlen, (hinv _ hmem).1]; norm_num)
    obtain ⟨more, hmore, hkeys, hprops⟩ := ih (fun p hp => h p (by simp [hp]))
    by_cases hvis : -(3 / 10) < visibility
    · refine ⟨⟨faceIndex, visibility, path, faceColor faceIndex, calculateAlpha visibility⟩ :: more,
        ?_, ?_, ?_⟩
      · simp [paintLoop, hface, hfv, hvis, hpath, hmore]
      · simp [hvis, hkeys]
      · intro p hp
        rcases List.mem_cons.mp hp with rfl | hp
        · exact ⟨rfl, rfl⟩
        · exact hprops p hp
    · refine ⟨more, ?_, ?_, hprops⟩
      · simp [paintLoop, hface, hfv, hvis, hmore]
      · simp [hvis, hkeys]

end LoopFacts

/-! ### `std::sort` on the `(visibility, faceIndex)` pairs -/

theorem scorePairs_snd {K : Type} (scores : List K) :
    (scorePairs scores).map Prod.snd = List.range scores.length := by
  unfold scorePairs
  rw [List.map_snd_zip]
  simp

theorem mem_scorePairs {K : Type} (scores : List K) (p : K × Nat) :
    p ∈ scorePairs scores ↔ scores[p.2]? = some p.1 := by
  unfold scorePairs
  constructor
  · intro h
    obtain ⟨i, hi, hp⟩ := List.getElem_of_mem h
    simp only [List.getElem_zip, List.getElem_range] at hp
    rw [List.length_zip, List.length_range, min_self] at hi
    rw [← hp]
    simp [List.getElem?_eq_getElem hi]
  · intro h
    obtain ⟨hi, hp⟩ := List.getElem?_eq_some_iff.mp h
    have hi' : p.2 < (scores.zip (List.range scores.length)).length := by simp [hi]
    have : (scores.zip (List.range scores.length))[p.2] = p := by
      simp only [List.getElem_zip, List.getElem_range, hp]
    rw [← this]
    exact List.getElem_mem hi'

section SortFacts

variable {K : Type} [LinearOrderedField K]

theorem pairNotAfter_iff (a b : K × Nat) :
    pairNotAfter a b ↔ a.1 < b.1 ∨ (a.1 = b.1 ∧ a.2 ≤ b.2) := by
  unfold pairNotAfter pairLess
  constructor
  · intro h
    push_neg at h
    rcases lt_trichotomy a.1 b.1 with hlt | heq | hgt
    · exact Or.inl hlt
    · exact Or.inr ⟨heq, h.2 (by simp [heq])⟩
    · exact absurd hgt (not_lt.mpr h.1)
  · rintro (hlt | ⟨heq, hle⟩)
    · intro h
      rcases h with h | ⟨h, _⟩
      · exact lt_asymm hlt h
      · exact h hlt
    · intro h
      rcases h with h | ⟨_, h⟩
      · rw [heq] at h; exact lt_irrefl _ h
      · omega

theorem pairNotAfter_isTotal : IsTotal (K × Nat) pairNotAfter where
  total a b := by
    rw [pairNotAfter_iff, pairNotAfter_iff]
    rcases lt_trichotomy a.1 b.1 with hlt | heq | hgt
    · exact Or.inl (Or.inl hlt)
    · rcases le_total a.2 b.2 with h | h
      · exact Or.inl (Or.inr ⟨heq, h⟩)
      · exact Or.inr (Or.inr ⟨heq.symm, h⟩)
    · exact Or.inr (Or.inl hgt)

theorem pairNotAfter_isTrans : IsTrans (K × Nat) pairNotAfter where
  trans a b c := by
    rw [pairNotAfter_iff, pairNotAfter_iff, pairNotAfter_iff]
    rintro (h1 | ⟨h1, h1'⟩) (h2 | ⟨h2, h2'⟩)
    · exact Or.inl (lt_trans h1 h2)
    · exact Or.inl (h2 ▸ h1)
    · exact Or.inl (h1 ▸ h2)
    · exact Or.inr ⟨h1.trans h2, le_trans h1' h2'⟩

theorem stdSort_sorted (l : List (K × Nat)) : (stdSort l).Sorted pairNotAfter :=
  @List.sorted_insertionSort _ pairNotAfter _ pairNotAfter_isTotal pairNotAfter_isTrans l

theorem stdSort_perm (l : List (K × Nat)) : (stdSort l).Perm l :=
  List.perm_insertionSort pairNotAfter l

/-- The pairs kept by the `visibility > -0.3f` test, in sorted order. -/
theorem paintedKeys_facts (scores : List K) :
    let keys := (stdSort (scorePairs scores)).filter (fun p => decide (-(3 / 10) < p.1))
    (keys.map Prod.fst).Sorted (fun a b => a ≤ b) ∧
    (keys.map Prod.snd).Nodup ∧
    keys.Pairwise (fun a b => a.1 = b.1 → a.2 < b.2) ∧
    (∀ p : K × Nat, p ∈ keys ↔ scores[p.2]? = some p.1 ∧ -(3 / 10) < p.1) := by
  intro keys
  have hsorted : keys.Pairwise pairNotAfter := (stdSort_sorted (scorePairs scores)).filter _
  have hnodup : (keys.map Prod.snd).Nodup := by
    have h1 : ((stdSort (scorePairs scores)).map Prod.snd).Nodup := by
      rw [((stdSort_perm (scorePairs scores)).map Prod.snd).nodup_iff, scorePairs_snd]
      exact List.nodup_range _
    exact h1.sublist (List.Sublist.map _ (List.filter_sublist _))
  have hne : keys.Pairwise (fun a b => a.2 ≠ b.2) := by
    have := List.pairwise_map.mp hnodup
    exact this
  refine ⟨?_, hnodup, ?_, ?_⟩
  · apply List.Pairwise.map Prod.fst _ hsorted
    intro a b hab
    rcases (pairNotAfter_iff a b).mp hab with h | ⟨h, _⟩
    · exact le_of_lt h
    · exact le_of_eq h
  · apply (hsorted.and hne).imp
    rintro a b ⟨hab, hne⟩ heq
    rcases (pairNotAfter_iff a b).mp hab with h | ⟨_, h⟩
    · exact absurd heq (ne_of_lt h)
    · omega
  · intro p
    simp only [keys, List.mem_filter, decide_eq_true_eq]
    rw [(stdSort_perm (scorePairs scores)).mem_iff, mem_scorePairs]

theorem scorePairs_index_lt (scores : List K) (n : Nat) (hlen : scores.length = n) :
    ∀ p ∈ stdSort (scorePairs scores), p.2 < n := by
  intro p hp
  rw [(stdSort_perm (scorePairs scores)).mem_iff, mem_scorePairs] at hp
  have := (List.getElem?_eq_some_iff.mp hp).1
  omega

end SortFacts

/-! ### The painting order of `drawCube` -/

section PaintFacts

variable {K : Type} [LinearOrderedField K] [FloorRing K]

theorem paintLoop_sorted_facts (tv : List (QVector3D K)) (faces : List (List Int))
    (hinv : faceInvariant tv.length faces) (scores : List K)
    (hlen : scores.length = faces.length) :
    ∃ painted, paintLoop tv faces (stdSort (scorePairs scores)) = some painted ∧
      (painted.map PaintedFace.visibility).Sorted (fun a b => a ≤ b) ∧
      (painted.map PaintedFace.faceIndex).Nodup ∧
      painted.Pairwise (fun p q => p.visibility = q.visibility → p.faceIndex < q.faceIndex) ∧
      (∀ p ∈ painted, scores[p.faceIndex]? = some p.visibility ∧ -(3 / 10) < p.visibility ∧
        p.alpha = calculateAlpha p.visibility ∧ p.color = faceColor p.faceIndex) ∧
      (∀ (i : Nat) (s : K), scores[i]? = some s →
        (i ∈ painted.map PaintedFace.faceIndex ↔ -(3 / 10) < s)) := by
  obtain ⟨painted, hrun, hkeys, hprops⟩ :=
    paintLoop_some tv faces hinv (stdSort (scorePairs scores))
      (scorePairs_index_lt scores faces.length hlen)
  obtain ⟨h1, h2, h3, h4⟩ := paintedKeys_facts scores
  rw [← hkeys] at h1 h2 h3 h4
  have hmem : ∀ p ∈ painted, scores[p.faceIndex]? = some p.visibility ∧
      -(3 / 10) < p.visibility := by
    intro p hp
    exact (h4 (p.visibility, p.faceIndex)).mp (List.mem_map.mpr ⟨p, hp, rfl⟩)
  refine ⟨painted, hrun, ?_, ?_, ?_, ?_, ?_⟩
  · simpa [List.map_map, Function.comp_def] using h1
  · simpa [List.map_map, Function.comp_def] using h2
  · exact List.pairwise_map.mp h3
  · intro p hp
    exact ⟨(hmem p hp).1, (hmem p hp).2, hprops p hp⟩
  · intro i s hs
    constructor
    · intro hi
      obtain ⟨p, hp, rfl⟩ := List.mem_map.mp hi
      have := (hmem p hp).1
      rw [hs] at this
      rw [Option.some.inj this]
      exact (hmem p hp).2
    · intro hlt
      obtain ⟨p, hp, hpe⟩ := List.mem_map.mp ((h4 (s, i)).mpr ⟨hs, hlt⟩)
      exact List.mem_map.mpr ⟨p, hp, congrArg Prod.snd hpe⟩

theorem drawCube_eq_paintLoop (M : MathLib K) (width height : Int) (w : MainWindow K)
    (hinv : faceInvariant w.vertices.length w.faces) :
    ∃ scores : List K, scores.length = w.faces.length ∧
      faceVisibilityLoop M (transformVertices M width height w) 0 w.faces =
        some (scorePairs scores) ∧
      drawCube M width height w =
        paintLoop (transformVertices M width height w) w.faces (stdSort (scorePairs scores)) := by
  have hinv' : faceInvariant (transformVertices M width height w).length w.faces := by
    rw [transformVertices_length]; exact hinv
  obtain ⟨scores, hlen, h⟩ := faceVisibilityLoop_scorePairs M _ w.faces hinv'
  exact ⟨scores, hlen, h, by simp [drawCube, h]⟩

/-- C2: on every mesh with the face invariant, for every assignment `scores` of scores to its
faces the second loop of `drawCube` paints the faces in non-decreasing score order and paints no
face whose score is `≤ -0.3`; so does `drawCube` itself with the scores it computes. -/
theorem drawCube_paints_in_score_order (M : MathLib K) (width height : Int) (w : MainWindow K)
    (hinv : faceInvariant w.vertices.length w.faces) :
    (∀ scores : List K, scores.length = w.faces.length →
      ∃ painted,
        paintLoop (transformVertices M width height w) w.faces (stdSort (scorePairs scores)) =
          some painted ∧
        (painted.map PaintedFace.visibility).Sorted (fun a b => a ≤ b) ∧
        (∀ p ∈ painted, scores[p.faceIndex]? = some p.visibility) ∧
        (∀ (i : Nat) (s : K), scores[i]? = some s → s ≤ -(3 / 10) →
          i ∉ painted.map PaintedFace.faceIndex)) ∧
    (∃ scores painted,
      faceVisibilityLoop M (transformVertices M width height w) 0 w.faces =
        some (scorePairs scores) ∧
      drawCube M width height w = some painted ∧
      (painted.map PaintedFace.visibility).Sorted (fun a b => a ≤ b) ∧
      (∀ p ∈ painted, scores[p.faceIndex]? = some p.visibility) ∧
      (∀ (i : Nat) (s : K), scores[i]? = some s → s ≤ -(3 / 10) →
        i ∉ painted.map PaintedFace.faceIndex)) := by
  have hinv' : faceInvariant (transformVertices M width height w).length w.faces := by
    rw [transformVertices_length]; exact hinv
  have key : ∀ scores : List K, scores.length = w.faces.length →
      ∃ painted,
        paintLoop (transformVertices M width height w) w.faces (stdSort (scorePairs scores)) =
          some painted ∧
        (painted.map PaintedFace.visibility).Sorted (fun a b => a ≤ b) ∧
        (∀ p ∈ painted, scores[p.faceIndex]? = some p.visibility) ∧
        (∀ (i : Nat) (s : K), scores[i]? = some s → s ≤ -(3 / 10) →
          i ∉ painted.map PaintedFace.faceIndex) := by
    intro scores hlen
    obtain ⟨painted, hrun, hsorted, _, _, hmem, hiff⟩ :=
      paintLoop_sorted_facts _ w.faces hinv' scores hlen
    exact ⟨painted, hrun, hsorted, fun p hp => (hmem p hp).1,
      fun i s hs hle hi => absurd ((hiff i s hs).mp hi) (not_lt.mpr hle)⟩
  refine ⟨key, ?_⟩
  obtain ⟨scores, hlen, hloop, hdraw⟩ := drawCube_eq_paintLoop M width height w hinv
  obtain ⟨painted, hrun, hrest⟩ := key scores hlen
  exact ⟨scores, painted, hloop, hdraw.trans hrun, hrest⟩

/-- C10: on every mesh with the face invariant, for every assignment `scores` of scores to its
faces, sorting only permutes the `(score, faceIndex)` pairs, and the second loop of `drawCube`
paints each face index at most once, paints face `i` exactly when its score is `> -0.3`, paints
faces of equal score in ascending face-index order, and gives every painted face the alpha
`calculateAlpha` computes off its `score ≤ -0.3` branch; so does `drawCube` itself with the
scores it computes. -/
theorem drawCube_paints_exactly_visible_faces (M : MathLib K) (width height : Int)
    (w : MainWindow K) (hinv : faceInvariant w.vertices.length w.faces) :
    (∀ scores : List K, scores.length = w.faces.length →
      (stdSort (scorePairs scores)).Perm (scorePairs scores) ∧
      ∃ painted,
        paintLoop (transformVertices M width height w) w.faces (stdSort (scorePairs scores)) =
          some painted ∧
        (painted.map PaintedFace.faceIndex).Nodup ∧
        (∀ i : Nat, i ∈ painted.map PaintedFace.faceIndex ↔
          ∃ s, scores[i]? = some s ∧ -(3 / 10) < s) ∧
        painted.Pairwise
          (fun p q => p.visibility = q.visibility → p.faceIndex < q.faceIndex) ∧
        (∀ p ∈ painted, ¬ p.visibility ≤ -(3 / 10) ∧ p.alpha = calculateAlpha p.visibility)) ∧
    (∃ scores painted,
      faceVisibilityLoop M (transformVertices M width height w) 0 w.faces =
        some (scorePairs scores) ∧
      drawCube M width height w = some painted ∧
      (painted.map PaintedFace.faceIndex).Nodup ∧
      (∀ i : Nat, i ∈ painted.map PaintedFace.faceIndex ↔
        ∃ s, scores[i]? = some s ∧ -(3 / 10) < s) ∧
      painted.Pairwise
        (fun p q => p.visibility = q.visibility → p.faceIndex < q.faceIndex) ∧
      (∀ p ∈ painted, ¬ p.visibility ≤ -(3 / 10) ∧ p.alpha = calculateAlpha p.visibility)) := by
  have hinv' : faceInvariant (transformVertices M width height w).length w.faces := by
    rw [transformVertices_length]; exact hinv
  have key : ∀ scores : List K, scores.length = w.faces.length →
      ∃ painted,
        paintLoop (transformVertices M width height w) w.faces (stdSort (scorePairs scores)) =
          some painted ∧
        (painted.map PaintedFace.faceIndex).Nodup ∧
        (∀ i : Nat, i ∈ painted.map PaintedFace.faceIndex ↔
          ∃ s, scores[i]? = some s ∧ -(3 / 10) < s) ∧
        painted.Pairwise
          (fun p q => p.visibility = q.visibility → p.faceIndex < q.faceIndex) ∧
        (∀ p ∈ painted, ¬ p.visibility ≤ -(3 / 10) ∧ p.alpha = calculateAlpha p.visibility) := by
    intro scores hlen
    obtain ⟨painted, hrun, _, hnodup, hties, hmem, hiff⟩ :=
      paintLoop_sorted_facts _ w.faces hinv' scores hlen
    refine ⟨painted, hrun, hnodup, ?_, hties,
      fun p hp => ⟨not_le.mpr (hmem p hp).2.1, (hmem p hp).2.2.1⟩⟩
    intro i
    constructor
    · intro hi
      obtain ⟨p, hp, rfl⟩ := List.mem_map.mp hi
      exact ⟨p.visibility, (hmem p hp).1, (hmem p hp).2.1⟩
    · rintro ⟨s, hs, hlt⟩
      exact (hiff i s hs).mpr hlt
  refine ⟨fun scores hlen => ⟨stdSort_perm _, key scores hlen⟩, ?_⟩
  obtain ⟨scores, hlen, hloop, hdraw⟩ := drawCube_eq_paintLoop M width height w hinv
  obtain ⟨painted, hrun, hrest⟩ := key scores hlen
  exact ⟨scores, painted, hloop, hdraw.trans hrun, hrest⟩

end PaintFacts

/-! ### The cube of `initCube` -/

theorem initCube_faceInvariant {K : Type} [LinearOrderedField K] (w : MainWindow K) :
    faceInvariant (initCube w).vertices.length (initCube w).faces := by
  simp [faceInvariant, initCube]

/-- Witness of C2: the freshly constructed window over `ℝ`, drawn in an 800x600 widget. -/
theorem drawCube_paints_in_score_order_witness :
    faceInvariant (MainWindow.new : MainWindow ℝ).vertices.length
      (MainWindow.new : MainWindow ℝ).faces ∧
    ∃ painted, drawCube realMath 800 600 (MainWindow.new : MainWindow ℝ) = some painted ∧
      (painted.map PaintedFace.visibility).Sorted (fun a b => a ≤ b) := by
  refine ⟨initCube_faceInvariant _, ?_⟩
  obtain ⟨_, painted, _, hdraw, hsorted, _⟩ :=
    (drawCube_paints_in_score_order realMath 800 600 (MainWindow.new : MainWindow ℝ)
      (initCube_faceInvariant _)).2
  exact ⟨painted, hdraw, hsorted⟩

/-- Witness of C10: the freshly constructed window over `ℝ`, drawn in an 800x600 widget. -/
theorem drawCube_paints_exactly_visible_faces_witness :
    faceInvariant (MainWindow.new : MainWindow ℝ).vertices.length
      (MainWindow.new : MainWindow ℝ).faces ∧
    ∃ painted, drawCube realMath 800 600 (MainWindow.new : MainWindow ℝ) = some painted ∧
      (painted.map PaintedFace.faceIndex).Nodup ∧
      ∀ p ∈ painted, ¬ p.visibility ≤ -(3 / 10) := by
  refine ⟨initCube_faceInvariant _, ?_⟩
  obtain ⟨_, painted, _, hdraw, hnodup, _, _, hvis⟩ :=
    (drawCube_paints_exactly_visible_faces realMath 800 600 (MainWindow.new : MainWindow ℝ)
      (initCube_faceInvariant _)).2
  exact ⟨painted, hdraw, hnodup, fun p hp => (hvis p hp).1⟩

section CubeFacts

variable {K : Type} [LinearOrderedField K] [FloorRing K]

/-- C8: the mesh built by `initCube` has 8 vertices and 6 faces, every face has exactly 4
indices and every index lies in `[0, 8)`; hence, whatever the rotation and the widget size, every
lookup `transformedVertices[idx]` and `faceVertices[0..2]` of `drawCube` and `calculateNormal` is
in range and `drawCube` returns. -/
theorem initCube_indices_in_range (w : MainWindow K) :
    (initCube w).vertices.length = 8 ∧ (initCube w).faces.length = 6 ∧
    (∀ face ∈ (initCube w).faces, face.length = 4 ∧ ∀ idx ∈ face, 0 ≤ idx ∧ idx < 8) ∧
    (∀ (M : MathLib K) (width height : Int),
      (transformVertices M width height (initCube w)).length = 8 ∧
      (∀ face ∈ (initCube w).faces, ∀ idx ∈ face,
        (vectorAt (transformVertices M width height (initCube w)) idx).isSome) ∧
      (∀ face ∈ (initCube w).faces,
        ∃ fv, gatherFace (transformVertices M width height (initCube w)) face = some fv ∧
          fv.length = 4 ∧ (vectorAt fv 0).isSome ∧ (vectorAt fv 1).isSome ∧
          (vectorAt fv 2).isSome ∧ (calculateNormal M fv).isSome) ∧
      (drawCube M width height (initCube w)).isSome) := by
  have hinv := initCube_faceInvariant w
  have hv : (initCube w).vertices.length = 8 := by simp [initCube]
  refine ⟨hv, by simp [initCube], ?_, ?_⟩
  · intro face hface
    have := hinv face hface
    rw [hv] at this
    exact this
  · intro M width height
    have hlen := transformVertices_length M width height (initCube w)
    refine ⟨hlen.trans hv, ?_, ?_, ?_⟩
    · intro face hface idx hidx
      have hr := (hinv face hface).2 idx hidx
      obtain ⟨v, hv⟩ := vectorAt_some (transformVertices M width height (initCube w)) idx hr.1
        (by rw [hlen]; exact hr.2)
      simp [hv]
    · intro face hface
      obtain ⟨fv, hfv, hl⟩ := gatherFace_some (transformVertices M width height (initCube w))
        face (by rw [hlen]; exact (hinv face hface).2)
      have hl4 : fv.length = 4 := hl.trans (hinv face hface).1
      obtain ⟨p0, h0⟩ := vectorAt_some fv 0 (by norm_num) (by omega)
      obtain ⟨p1, h1⟩ := vectorAt_some fv 1 (by norm_num) (by omega)
      obtain ⟨p2, h2⟩ := vectorAt_some fv 2 (by norm_num) (by omega)
      obtain ⟨n, hn⟩ := calculateNormal_some M fv (by omega)
      exact ⟨fv, hfv, hl4, by simp [h0], by simp [h1], by simp [h2], by simp [hn]⟩
    · obtain ⟨scores, hsl, _, hdraw⟩ := drawCube_eq_paintLoop M width height (initCube w) hinv
      have hinv' : faceInvariant (transformVertices M width height (initCube w)).length
          (initCube w).faces := by rw [hlen]; exact hinv
      obtain ⟨painted, hrun, _⟩ := paintLoop_sorted_facts _ _ hinv' scores hsl
      rw [hdraw, hrun]
      rfl

end CubeFacts

/-- Witness of C8: the face `[0, 3, 2, 1]` of the cube rebuilt in the fresh window over `ℚ`. -/
theorem initCube_indices_in_range_witness :
    ([0, 3, 2, 1] : List Int) ∈ (initCube (MainWindow.new : MainWindow ℚ)).faces ∧
    (([0, 3, 2, 1] : List Int).length = 4 ∧
      ∀ idx ∈ ([0, 3, 2, 1] : List Int), 0 ≤ idx ∧ idx < 8) :=
  ⟨by simp [initCube],
    (initCube_indices_in_range (MainWindow.new : MainWindow ℚ)).2.2.1 _ (by simp [initCube])⟩

/-! ### Normals over the reals -/

theorem normalized_real_of_sq (v : QVector3D ℝ) (l : ℝ) (hl : 0 < l)
    (h : QVector3D.lengthSquared v = l ^ 2) :
    QVector3D.normalized realMath v = QVector3D.divScalar v l := by
  have hlen : QVector3D.length realMath v = l := by
    simp only [QVector3D.length, realMath, h]
    exact Real.sqrt_sq hl.le
  simp only [QVector3D.normalized, hlen, if_neg hl.ne']

theorem calculateNormal_real (p0 p1 p2 : QVector3D ℝ) (rest : List (QVector3D ℝ))
    (l : ℝ) (hl : 0 < l)
    (h : QVector3D.lengthSquared (QVector3D.crossProduct (p1.sub p0) (p2.sub p0)) = l ^ 2) :
    calculateNormal realMath (p0 :: p1 :: p2 :: rest) =
      some (QVector3D.divScalar (QVector3D.crossProduct (p1.sub p0) (p2.sub p0)) l) := by
  have h0 : vectorAt (p0 :: p1 :: p2 :: rest) 0 = some p0 := rfl
  have h1 : vectorAt (p0 :: p1 :: p2 :: rest) 1 = some p1 := rfl
  have h2 : vectorAt (p0 :: p1 :: p2 :: rest) 2 = some p2 := by simp [vectorAt]
  simp only [calculateNormal, h0, h1, h2, Option.bind_eq_bind, Option.some_bind, pure,
    normalized_real_of_sq _ l hl h]

/-- C9: for every face of the cube of `initCube`, `calculateNormal` on the untransformed face
vertices gives the unit outward normal, `(0,0,-1)`, `(0,0,1)`, `(-1,0,0)`, `(1,0,0)`, `(0,-1,0)`,
`(0,1,0)` for the faces `0..5` (each at distance `100` from the origin along that normal), and
the eight vertices are exactly the points `(±100, ±100, ±100)`. -/
theorem initCube_normals_outward (w : MainWindow ℝ) :
    (initCube w).faces.map (fun face =>
      (gatherFace (initCube w).vertices face).bind fun fv =>
        (calculateNormal realMath fv).map fun n =>
          (n, QVector3D.dotProduct n (faceCenter fv))) =
      [some (⟨0, 0, -1⟩, 100), some (⟨0, 0, 1⟩, 100), some (⟨-1, 0, 0⟩, 100),
        some (⟨1, 0, 0⟩, 100), some (⟨0, -1, 0⟩, 100), some (⟨0, 1, 0⟩, 100)] ∧
    (initCube w).vertices.length = 8 ∧ (initCube w).vertices.Nodup ∧
    (∀ v : QVector3D ℝ, v ∈ (initCube w).vertices ↔
      (v.x = 100 ∨ v.x = -100) ∧ (v.y = 100 ∨ v.y = -100) ∧ (v.z = 100 ∨ v.z = -100)) := by
  have hv : (initCube w).vertices = [⟨-100, -100, -100⟩, ⟨100, -100, -100⟩, ⟨100, 100, -100⟩,
      ⟨-100, 100, -100⟩, ⟨-100, -100, 100⟩, ⟨100, -100, 100⟩, ⟨100, 100, 100⟩,
      ⟨-100, 100, 100⟩] := rfl
  have hf : (initCube w).faces = [[0, 3, 2, 1], [4, 5, 6, 7], [0, 4, 7, 3], [1, 2, 6, 5],
      [0, 1, 5, 4], [3, 7, 6, 2]] := rfl
  have hg0 : gatherFace (initCube w).vertices [0, 3, 2, 1] = some [⟨-100, -100, -100⟩,
      ⟨-100, 100, -100⟩, ⟨100, 100, -100⟩, ⟨100, -100, -100⟩] := rfl
  have hg1 : gatherFace (initCube w).vertices [4, 5, 6, 7] = some [⟨-100, -100, 100⟩,
      ⟨100, -100, 100⟩, ⟨100, 100, 100⟩, ⟨-100, 100, 100⟩] := rfl
  have hg2 : gatherFace (initCube w).vertices [0, 4, 7, 3] = some [⟨-100, -100, -100⟩,
      ⟨-100, -100, 100⟩, ⟨-100, 100, 100⟩, ⟨-100, 100, -100⟩] := rfl
  have hg3 : gatherFace (initCube w).vertices [1, 2, 6, 5] = some [⟨100, -100, -100⟩,
      ⟨100, 100, -100⟩, ⟨100, 100, 100⟩, ⟨100, -100, 100⟩] := rfl
  have hg4 : gatherFace (initCube w).vertices [0, 1, 5, 4] = some [⟨-100, -100, -100⟩,
      ⟨100, -100, -100⟩, ⟨100, -100, 100⟩, ⟨-100, -100, 100⟩] := rfl
  have hg5 : gatherFace (initCube w).vertices [3, 7, 6, 2] = some [⟨-100, 100, -100⟩,
      ⟨-100, 100, 100⟩, ⟨100, 100, 100⟩, ⟨100, 100, -100⟩] := rfl
  refine ⟨?_, by simp [initCube], ?_, ?_⟩
  · rw [hf]
    simp only [List.map_cons, List.map_nil, hg0, hg1, hg2, hg3, hg4, hg5,
      Option.some_bind]
    rw [calculateNormal_real _ _ _ _ 40000 (by norm_num)
        (by norm_num [QVector3D.lengthSquared, QVector3D.crossProduct, QVector3D.sub]),
      calculateNormal_real _ _ _ _ 40000 (by norm_num)
        (by norm_num [QVector3D.lengthSquared, QVector3D.crossProduct, QVector3D.sub]),
      calculateNormal_real _ _ _ _ 40000 (by norm_num)
        (by norm_num [QVector3D.lengthSquared, QVector3D.crossProduct, QVector3D.sub]),
      calculateNormal_real _ _ _ _ 40000 (by norm_num)
        (by norm_num [QVector3D.lengthSquared, QVector3D.crossProduct, QVector3D.sub]),
      calculateNormal_real _ _ _ _ 40000 (by norm_num)
        (by norm_num [QVector3D.lengthSquared, QVector3D.crossProduct, QVector3D.sub]),
      calculateNormal_real _ _ _ _ 40000 (by norm_num)
        (by norm_num [QVector3D.lengthSquared, QVector3D.crossProduct, QVector3D.sub])]
    norm_num [QVector3D.divScalar, QVector3D.crossProduct, QVector3D.sub,
      QVector3D.dotProduct, faceCenter, QVector3D.add]
  · rw [hv]
    simp only [List.nodup_cons, List.mem_cons, QVector3D.mk.injEq, List.mem_singleton,
      List.not_mem_nil, List.nodup_nil]
    norm_num
  · intro v
    obtain ⟨x, y, z⟩ := v
    rw [hv]
    simp only [List.mem_cons, QVector3D.mk.injEq, List.mem_singleton, List.not_mem_nil,
      or_false]
    constructor
    · rintro (h | h | h | h | h | h | h | h) <;> simp [h.1, h.2.1, h.2.2]
    · rintro ⟨hx | hx, hy | hy, hz | hz⟩ <;> simp [hx, hy, hz]

/-! ### Vector algebra -/

section VectorFacts

variable {K : Type} [LinearOrderedField K]

theorem QVector3D.lengthSquared_nonneg (v : QVector3D K) : 0 ≤ QVector3D.lengthSquared v := by
  unfold QVector3D.lengthSquared
  nlinarith [mul_self_nonneg v.x, mul_self_nonneg v.y, mul_self_nonneg v.z]

theorem QVector3D.lengthSquared_pos (v : QVector3D K) (h : v ≠ QVector3D.zero) :
    0 < QVector3D.lengthSquared v := by
  rcases (QVector3D.lengthSquared_nonneg v).lt_or_eq with hpos | hzero
  · exact hpos
  · exfalso
    apply h
    unfold QVector3D.lengthSquared at hzero
    have hx : v.x = 0 := by nlinarith [mul_self_nonneg v.x, mul_self_nonneg v.y, mul_self_nonneg v.z]
    have hy : v.y = 0 := by nlinarith [mul_self_nonneg v.x, mul_self_nonneg v.y, mul_self_nonneg v.z]
    have hz : v.z = 0 := by nlinarith [mul_self_nonneg v.x, mul_self_nonneg v.y, mul_self_nonneg v.z]
    cases v with
    | mk x y z =>
      simp only at hx hy hz
      rw [hx, hy, hz]
      rfl

theorem QVector3D.dotProduct_sq_le (a b : QVector3D K) :
    QVector3D.dotProduct a b ^ 2 ≤ QVector3D.lengthSquared a * QVector3D.lengthSquared b := by
  unfold QVector3D.dotProduct QVector3D.lengthSquared
  nlinarith [sq_nonneg (a.x * b.y - a.y * b.x), sq_nonneg (a.y * b.z - a.z * b.y),
    sq_nonneg (a.z * b.x - a.x * b.z)]

theorem QVector3D.dotProduct_unit_bounds (a b : QVector3D K)
    (ha : QVector3D.lengthSquared a = 1) (hb : QVector3D.lengthSquared b = 1) :
    -1 ≤ QVector3D.dotProduct a b ∧ QVector3D.dotProduct a b ≤ 1 := by
  have h := QVector3D.dotProduct_sq_le a b
  rw [ha, hb] at h
  constructor <;> nlinarith

theorem QVector3D.sub_add_cancel_right (a b d : QVector3D K) :
    QVector3D.sub (QVector3D.add a d) (QVector3D.add b d) = QVector3D.sub a b := by
  simp [QVector3D.sub, QVector3D.add]

end VectorFacts

theorem normalized_real (v : QVector3D ℝ) (h : v ≠ QVector3D.zero) :
    QVector3D.normalized realMath v =
      QVector3D.divScalar v (Real.sqrt (QVector3D.lengthSquared v)) ∧
    QVector3D.lengthSquared (QVector3D.normalized realMath v) = 1 := by
  have hpos := QVector3D.lengthSquared_pos v h
  have hs : 0 < Real.sqrt (QVector3D.lengthSquared v) := Real.sqrt_pos.mpr hpos
  have hn := normalized_real_of_sq v _ hs (Real.sq_sqrt hpos.le).symm
  refine ⟨hn, ?_⟩
  rw [hn]
  have hsq : Real.sqrt (QVector3D.lengthSquared v) * Real.sqrt (QVector3D.lengthSquared v) =
      QVector3D.lengthSquared v := Real.mul_self_sqrt hpos.le
  have hexp : QVector3D.lengthSquared
      (QVector3D.divScalar v (Real.sqrt (QVector3D.lengthSquared v))) =
      QVector3D.lengthSquared v /
        (Real.sqrt (QVector3D.lengthSquared v) * Real.sqrt (QVector3D.lengthSquared v)) := by
    simp only [QVector3D.divScalar, QVector3D.lengthSquared]
    ring
  rw [hexp, hsq, div_self hpos.ne']

/-- C3: for four face vertices whose first three are not collinear and whose centroid is not
the view point `(0, 0, 1000)`, `calculateVisibility` returns the scalar product of two unit
vectors (the normal and the view vector), a score in `[-1, 1]`. -/
theorem calculateVisibility_in_unit_interval (v0 v1 v2 v3 : QVector3D ℝ)
    (hcross : QVector3D.crossProduct (v1.sub v0) (v2.sub v0) ≠ QVector3D.zero)
    (hcenter : faceCenter [v0, v1, v2, v3] ≠ viewPoint) :
    ∃ normal viewVector score,
      calculateNormal realMath [v0, v1, v2, v3] = some normal ∧
      viewVector = QVector3D.normalized realMath (viewPoint.sub (faceCenter [v0, v1, v2, v3])) ∧
      QVector3D.lengthSquared normal = 1 ∧ QVector3D.lengthSquared viewVector = 1 ∧
      calculateVisibility realMath [v0, v1, v2, v3] = some score ∧
      score = QVector3D.dotProduct normal viewVector ∧ -1 ≤ score ∧ score ≤ 1 := by
  have h0 : vectorAt [v0, v1, v2, v3] 0 = some v0 := rfl
  have h1 : vectorAt [v0, v1, v2, v3] 1 = some v1 := rfl
  have h2 : vectorAt [v0, v1, v2, v3] 2 = some v2 := by simp [vectorAt]
  have hn : calculateNormal realMath [v0, v1, v2, v3] =
      some (QVector3D.normalized realMath (QVector3D.crossProduct (v1.sub v0) (v2.sub v0))) := by
    simp only [calculateNormal, h0, h1, h2, Option.bind_eq_bind, Option.some_bind, pure]
  have hview : viewPoint.sub (faceCenter [v0, v1, v2, v3]) ≠ QVector3D.zero := by
    intro hz
    apply hcenter
    have hx := congrArg QVector3D.x hz
    have hy := congrArg QVector3D.y hz
    have hzz := congrArg QVector3D.z hz
    simp only [QVector3D.sub, QVector3D.zero] at hx hy hzz
    cases hc : faceCenter [v0, v1, v2, v3] with
    | mk cx cy cz =>
      rw [hc] at hx hy hzz
      simp only [viewPoint] at hx hy hzz ⊢
      congr 1 <;> linarith
  have hunit1 := (normalized_real _ hcross).2
  have hunit2 := (normalized_real _ hview).2
  refine ⟨_, _, _, hn, rfl, hunit1, hunit2, ?_, rfl, ?_⟩
  · simp only [calculateVisibility, hn, Option.bind_eq_bind, Option.some_bind, pure]
  · exact QVector3D.dotProduct_unit_bounds _ _ hunit1 hunit2

/-- Witness of C3: the front face of the untransformed cube. -/
theorem calculateVisibility_in_unit_interval_witness :
    ∃ score, calculateVisibility realMath
        [⟨-100, -100, 100⟩, ⟨100, -100, 100⟩, ⟨100, 100, 100⟩, ⟨-100, 100, 100⟩] = some score ∧
      -1 ≤ score ∧ score ≤ 1 := by
  obtain ⟨_, _, score, _, _, _, _, hs, _, hb⟩ :=
    calculateVisibility_in_unit_interval ⟨-100, -100, 100⟩ ⟨100, -100, 100⟩ ⟨100, 100, 100⟩
      ⟨-100, 100, 100⟩
      (by norm_num [QVector3D.crossProduct, QVector3D.sub, QVector3D.zero])
      (by norm_num [faceCenter, QVector3D.add, QVector3D.divScalar, viewPoint])
  exact ⟨score, hs, hb⟩

theorem calculateVisibility_real (p0 p1 p2 : QVector3D ℝ) (rest : List (QVector3D ℝ))
    (l lv : ℝ) (hl : 0 < l) (hlv : 0 < lv)
    (h : QVector3D.lengthSquared (QVector3D.crossProduct (p1.sub p0) (p2.sub p0)) = l ^ 2)
    (hv : QVector3D.lengthSquared (viewPoint.sub (faceCenter (p0 :: p1 :: p2 :: rest))) =
      lv ^ 2) :
    calculateVisibility realMath (p0 :: p1 :: p2 :: rest) =
      some (QVector3D.dotProduct
        (QVector3D.divScalar (QVector3D.crossProduct (p1.sub p0) (p2.sub p0)) l)
        (QVector3D.divScalar (viewPoint.sub (faceCenter (p0 :: p1 :: p2 :: rest))) lv)) := by
  simp only [calculateVisibility, calculateNormal_real p0 p1 p2 rest l hl h,
    normalized_real_of_sq _ lv hlv hv, Option.bind_eq_bind, Option.some_bind, pure]

/-- Counterexample to C4 as stated: the square `(±1, ±1, 0)` scores `1`, the same square moved
by `(0, 0, 2000)` scores `-1`, the view point staying at `(0, 0, 1000)`. -/
theorem calculateVisibility_translation_counterexample :
    calculateVisibility realMath [⟨-1, -1, 0⟩, ⟨1, -1, 0⟩, ⟨1, 1, 0⟩, ⟨-1, 1, 0⟩] = some 1 ∧
    calculateVisibility realMath
      (([⟨-1, -1, 0⟩, ⟨1, -1, 0⟩, ⟨1, 1, 0⟩, ⟨-1, 1, 0⟩] : List (QVector3D ℝ)).map
        (fun v => QVector3D.add v ⟨0, 0, 2000⟩)) = some (-1) ∧
    ¬ (∀ v0 v1 v2 v3 d : QVector3D ℝ,
      calculateVisibility realMath [v0.add d, v1.add d, v2.add d, v3.add d] =
        calculateVisibility realMath [v0, v1, v2, v3]) := by
  have h1 : calculateVisibility realMath [⟨-1, -1, 0⟩, ⟨1, -1, 0⟩, ⟨1, 1, 0⟩, ⟨-1, 1, 0⟩] =
      some 1 := by
    rw [calculateVisibility_real _ _ _ _ 4 1000 (by norm_num) (by norm_num)
      (by norm_num [QVector3D.lengthSquared, QVector3D.crossProduct, QVector3D.sub])
      (by norm_num [QVector3D.lengthSquared, QVector3D.sub, faceCenter, QVector3D.add,
        QVector3D.divScalar, viewPoint])]
    norm_num [QVector3D.dotProduct, QVector3D.divScalar, QVector3D.crossProduct, QVector3D.sub,
      faceCenter, QVector3D.add, viewPoint]
  have h2 : calculateVisibility realMath
      (([⟨-1, -1, 0⟩, ⟨1, -1, 0⟩, ⟨1, 1, 0⟩, ⟨-1, 1, 0⟩] : List (QVector3D ℝ)).map
        (fun v => QVector3D.add v ⟨0, 0, 2000⟩)) = some (-1) := by
    simp only [List.map_cons, List.map_nil]
    rw [calculateVisibility_real _ _ _ _ 4 1000 (by norm_num) (by norm_num)
      (by norm_num [QVector3D.lengthSquared, QVector3D.crossProduct, QVector3D.sub,
        QVector3D.add])
      (by norm_num [QVector3D.lengthSquared, QVector3D.sub, faceCenter, QVector3D.add,
        QVector3D.divScalar, viewPoint])]
    norm_num [QVector3D.dotProduct, QVector3D.divScalar, QVector3D.crossProduct, QVector3D.sub,
      faceCenter, QVector3D.add, viewPoint]
  refine ⟨h1, h2, ?_⟩
  intro hall
  have h3 := hall ⟨-1, -1, 0⟩ ⟨1, -1, 0⟩ ⟨1, 1, 0⟩ ⟨-1, 1, 0⟩ ⟨0, 0, 2000⟩
  simp only [List.map_cons, List.map_nil] at h2
  rw [h1, h2] at h3
  norm_num at h3

section TranslationFacts

variable {K : Type} [LinearOrderedField K]

theorem faceCenter_translate (v0 v1 v2 v3 d : QVector3D K) :
    faceCenter [v0.add d, v1.add d, v2.add d, v3.add d] =
      (faceCenter [v0, v1, v2, v3]).add d := by
  simp only [faceCenter, List.foldl_cons, List.foldl_nil, QVector3D.add, QVector3D.divScalar,
    List.length_cons, List.length_nil]
  congr 1 <;> · push_cast; ring

theorem calculateNormal_translate (M : MathLib K) (v0 v1 v2 v3 d : QVector3D K) :
    calculateNormal M [v0.add d, v1.add d, v2.add d, v3.add d] =
      calculateNormal M [v0, v1, v2, v3] := by
  have e : ∀ a b c e : QVector3D K, calculateNormal M [a, b, c, e] =
      some (QVector3D.normalized M (QVector3D.crossProduct (b.sub a) (c.sub a))) := by
    intro a b c e
    have h0 : vectorAt [a, b, c, e] 0 = some a := rfl
    have h1 : vectorAt [a, b, c, e] 1 = some b := rfl
    have h2 : vectorAt [a, b, c, e] 2 = some c := by simp [vectorAt]
    simp only [calculateNormal, h0, h1, h2, Option.bind_eq_bind, Option.some_bind, pure]
  rw [e, e, QVector3D.sub_add_cancel_right, QVector3D.sub_add_cancel_right]

/-- C4, amended: moving the four face vertices by `d` leaves the normal of `calculateNormal`
unchanged and moves the centroid by `d`; the score of the moved face is the scalar product of
that normal with the unit vector from the original centroid toward `(0, 0, 1000) - d`, that is,
the score of the original face seen from the view point moved by `-d`. -/
theorem calculateVisibility_translate (M : MathLib K) (v0 v1 v2 v3 d : QVector3D K) :
    calculateNormal M [v0.add d, v1.add d, v2.add d, v3.add d] =
      calculateNormal M [v0, v1, v2, v3] ∧
    faceCenter [v0.add d, v1.add d, v2.add d, v3.add d] =
      (faceCenter [v0, v1, v2, v3]).add d ∧
    calculateVisibility M [v0.add d, v1.add d, v2.add d, v3.add d] =
      (calculateNormal M [v0, v1, v2, v3]).map (fun normal =>
        QVector3D.dotProduct normal
          (QVector3D.normalized M ((viewPoint.sub d).sub (faceCenter [v0, v1, v2, v3])))) := by
  refine ⟨calculateNormal_translate M v0 v1 v2 v3 d, faceCenter_translate v0 v1 v2 v3 d, ?_⟩
  have hsub : viewPoint.sub ((faceCenter [v0, v1, v2, v3]).add d) =
      (viewPoint.sub d).sub (faceCenter [v0, v1, v2, v3]) := by
    simp only [QVector3D.sub, QVector3D.add]
    congr 1 <;> ring
  simp only [calculateVisibility, calculateNormal_translate M v0 v1 v2 v3 d,
    faceCenter_translate v0 v1 v2 v3 d, hsub]
  cases calculateNormal M [v0, v1, v2, v3] <;> rfl

end TranslationFacts

/-! ### The identity-rotation scenario -/

theorem drawMatrix_identity_rotation :
    drawMatrix realMath 800 600 (MainWindow.new : MainWindow ℝ) =
      !![1, 0, 0, 400; 0, 1, 0, 300; 0, 0, 1, 0; 0, 0, 0, 1] := by
  have hx : (MainWindow.new : MainWindow ℝ).angleX = 0 := rfl
  have hy : (MainWindow.new : MainWindow ℝ).angleY = 0 := rfl
  have hz : (MainWindow.new : MainWindow ℝ).angleZ = 0 := rfl
  have h8 : Int.tdiv 800 2 = 400 := by decide
  have h6 : Int.tdiv 600 2 = 300 := by decide
  simp only [drawMatrix, QMatrix4x4.rotate, hx, hy, hz, if_true, QMatrix4x4.translate,
    QMatrix4x4.identity, Matrix.one_mul, h8, h6]
  norm_num

theorem transformVertices_identity_rotation :
    transformVertices realMath 800 600 (MainWindow.new : MainWindow ℝ) =
      [⟨300, 200, -100⟩, ⟨500, 200, -100⟩, ⟨500, 400, -100⟩, ⟨300, 400, -100⟩,
       ⟨300, 200, 100⟩, ⟨500, 200, 100⟩, ⟨500, 400, 100⟩, ⟨300, 400, 100⟩] := by
  have hv : (MainWindow.new : MainWindow ℝ).vertices = [⟨-100, -100, -100⟩, ⟨100, -100, -100⟩,
      ⟨100, 100, -100⟩, ⟨-100, 100, -100⟩, ⟨-100, -100, 100⟩, ⟨100, -100, 100⟩,
      ⟨100, 100, 100⟩, ⟨-100, 100, 100⟩] := rfl
  have hmap : ∀ x y z : ℝ, QMatrix4x4.map
      (!![1, 0, 0, 400; 0, 1, 0, 300; 0, 0, 1, 0; 0, 0, 0, 1] : QMatrix4x4 ℝ) ⟨x, y, z⟩ =
      ⟨x + 400, y + 300, z⟩ := by
    intro x y z
    generalize hT : (!![1, 0, 0, 400; 0, 1, 0, 300; 0, 0, 1, 0; 0, 0, 0, 1] : QMatrix4x4 ℝ) = T
    have e00 : T 0 0 = 1 := by rw [← hT]; rfl
    have e01 : T 0 1 = 0 := by rw [← hT]; rfl
    have e02 : T 0 2 = 0 := by rw [← hT]; rfl
    have e03 : T 0 3 = 400 := by rw [← hT]; rfl
    have e10 : T 1 0 = 0 := by rw [← hT]; rfl
    have e11 : T 1 1 = 1 := by rw [← hT]; rfl
    have e12 : T 1 2 = 0 := by rw [← hT]; rfl
    have e13 : T 1 3 = 300 := by rw [← hT]; rfl
    have e20 : T 2 0 = 0 := by rw [← hT]; rfl
    have e21 : T 2 1 = 0 := by rw [← hT]; rfl
    have e22 : T 2 2 = 1 := by rw [← hT]; rfl
    have e23 : T 2 3 = 0 := by rw [← hT]; rfl
    have e30 : T 3 0 = 0 := by rw [← hT]; rfl
    have e31 : T 3 1 = 0 := by rw [← hT]; rfl
    have e32 : T 3 2 = 0 := by rw [← hT]; rfl
    have e33 : T 3 3 = 1 := by rw [← hT]; rfl
    simp only [QMatrix4x4.map, e00, e01, e02, e03, e10, e11, e12, e13, e20, e21, e22, e23,
      e30, e31, e32, e33]
    norm_num
  simp only [transformVertices, drawMatrix_identity_rotation, hv, List.map_cons, List.map_nil,
    hmap]
  norm_num


theorem identity_score_0 :
    calculateVisibility realMath [⟨300, 200, -100⟩, ⟨300, 400, -100⟩, ⟨500, 400, -100⟩, ⟨500, 200, -100⟩] =
      some (-1100 / Real.sqrt 1460000) := by
  rw [calculateVisibility_real _ _ _ _ 40000 (Real.sqrt 1460000) (by norm_num)
    (Real.sqrt_pos.mpr (by norm_num))
    (by norm_num [QVector3D.lengthSquared, QVector3D.crossProduct, QVector3D.sub])
    (by
      rw [Real.sq_sqrt (by norm_num)]
      norm_num [QVector3D.lengthSquared, QVector3D.sub, faceCenter, QVector3D.add,
        QVector3D.divScalar, viewPoint])]
  norm_num [QVector3D.dotProduct, QVector3D.divScalar, QVector3D.crossProduct, QVector3D.sub,
    faceCenter, QVector3D.add, viewPoint]
  ring

theorem identity_score_1 :
    calculateVisibility realMath [⟨300, 200, 100⟩, ⟨500, 200, 100⟩, ⟨500, 400, 100⟩, ⟨300, 400, 100⟩] =
      some (900 / Real.sqrt 1060000) := by
  rw [calculateVisibility_real _ _ _ _ 40000 (Real.sqrt 1060000) (by norm_num)
    (Real.sqrt_pos.mpr (by norm_num))
    (by norm_num [QVector3D.lengthSquared, QVector3D.crossProduct, QVector3D.sub])
    (by
      rw [Real.sq_sqrt (by norm_num)]
      norm_num [QVector3D.lengthSquared, QVector3D.sub, faceCenter, QVector3D.add,
        QVector3D.divScalar, viewPoint])]
  norm_num [QVector3D.dotProduct, QVector3D.divScalar, QVector3D.crossProduct, QVector3D.sub,
    faceCenter, QVector3D.add, viewPoint]

theorem identity_score_2 :
    calculateVisibility realMath [⟨300, 200, -100⟩, ⟨300, 200, 100⟩, ⟨300, 400, 100⟩, ⟨300, 400, -100⟩] =
      some (300 / Real.sqrt 1180000) := by
  rw [calculateVisibility_real _ _ _ _ 40000 (Real.sqrt 1180000) (by norm_num)
    (Real.sqrt_pos.mpr (by norm_num))
    (by norm_num [QVector3D.lengthSquared, QVector3D.crossProduct, QVector3D.sub])
    (by
      rw [Real.sq_sqrt (by norm_num)]
      norm_num [QVector3D.lengthSquared, QVector3D.sub, faceCenter, QVector3D.add,
        QVector3D.divScalar, viewPoint])]
  norm_num [QVector3D.dotProduct, QVector3D.divScalar, QVector3D.crossProduct, QVector3D.sub,
    faceCenter, QVector3D.add, viewPoint]
  ring

theorem identity_score_3 :
    calculateVisibility realMath [⟨500, 200, -100⟩, ⟨500, 400, -100⟩, ⟨500, 400, 100⟩, ⟨500, 200, 100⟩] =
      some (-500 / Real.sqrt 1340000) := by
  rw [calculateVisibility_real _ _ _ _ 40000 (Real.sqrt 1340000) (by norm_num)
    (Real.sqrt_pos.mpr (by norm_num))
    (by norm_num [QVector3D.lengthSquared, QVector3D.crossProduct, QVector3D.sub])
    (by
      rw [Real.sq_sqrt (by norm_num)]
      norm_num [QVector3D.lengthSquared, QVector3D.sub, faceCenter, QVector3D.add,
        QVector3D.divScalar, viewPoint])]
  norm_num [QVector3D.dotProduct, QVector3D.divScalar, QVector3D.crossProduct, QVector3D.sub,
    faceCenter, QVector3D.add, viewPoint]

theorem identity_score_4 :
    calculateVisibility realMath [⟨300, 200, -100⟩, ⟨500, 200, -100⟩, ⟨500, 200, 100⟩, ⟨300, 200, 100⟩] =
      some (200 / Real.sqrt 1200000) := by
  rw [calculateVisibility_real _ _ _ _ 40000 (Real.sqrt 1200000) (by norm_num)
    (Real.sqrt_pos.mpr (by norm_num))
    (by norm_num [QVector3D.lengthSquared, QVector3D.crossProduct, QVector3D.sub])
    (by
      rw [Real.sq_sqrt (by norm_num)]
      norm_num [QVector3D.lengthSquared, QVector3D.sub, faceCenter, QVector3D.add,
        QVector3D.divScalar, viewPoint])]
  norm_num [QVector3D.dotProduct, QVector3D.divScalar, QVector3D.crossProduct, QVector3D.sub,
    faceCenter, QVector3D.add, viewPoint]
  ring

theorem identity_score_5 :
    calculateVisibility realMath [⟨300, 400, -100⟩, ⟨300, 400, 100⟩, ⟨500, 400, 100⟩, ⟨500, 400, -100⟩] =
      some (-400 / Real.sqrt 1320000) := by
  rw [calculateVisibility_real _ _ _ _ 40000 (Real.sqrt 1320000) (by norm_num)
    (Real.sqrt_pos.mpr (by norm_num))
    (by norm_num [QVector3D.lengthSquared, QVector3D.crossProduct, QVector3D.sub])
    (by
      rw [Real.sq_sqrt (by norm_num)]
      norm_num [QVector3D.lengthSquared, QVector3D.sub, faceCenter, QVector3D.add,
        QVector3D.divScalar, viewPoint])]
  norm_num [QVector3D.dotProduct, QVector3D.divScalar, QVector3D.crossProduct, QVector3D.sub,
    faceCenter, QVector3D.add, viewPoint]

theorem sqrt_between (L lo hi : ℝ) (hlo : 0 ≤ lo) (hhi : 0 < hi) (h1 : lo ^ 2 < L)
    (h2 : L < hi ^ 2) : lo < Real.sqrt L ∧ Real.sqrt L < hi :=
  ⟨(Real.lt_sqrt hlo).mpr h1, (Real.sqrt_lt' hhi).mpr h2⟩

theorem identity_score_bounds :
    (-1100 / Real.sqrt 1460000 < -(9 / 10) : Prop) ∧
    (87 / 100 < 900 / Real.sqrt 1060000) ∧
    (27 / 100 < 300 / Real.sqrt 1180000 ∧ 300 / Real.sqrt 1180000 < 28 / 100) ∧
    (-(44 / 100) < -500 / Real.sqrt 1340000 ∧ -500 / Real.sqrt 1340000 < -(43 / 100)) ∧
    (18 / 100 < 200 / Real.sqrt 1200000 ∧ 200 / Real.sqrt 1200000 < 19 / 100) ∧
    (-(35 / 100) < -400 / Real.sqrt 1320000 ∧ -400 / Real.sqrt 1320000 < -(34 / 100)) := by
  obtain ⟨a0, b0⟩ := sqrt_between 1460000 1208 1209 (by norm_num) (by norm_num) (by norm_num)
    (by norm_num)
  obtain ⟨a1, b1⟩ := sqrt_between 1060000 1029 1030 (by norm_num) (by norm_num) (by norm_num)
    (by norm_num)
  obtain ⟨a2, b2⟩ := sqrt_between 1180000 1086 1087 (by norm_num) (by norm_num) (by norm_num)
    (by norm_num)
  obtain ⟨a3, b3⟩ := sqrt_between 1340000 1157 1158 (by norm_num) (by norm_num) (by norm_num)
    (by norm_num)
  obtain ⟨a4, b4⟩ := sqrt_between 1200000 1095 1096 (by norm_num) (by norm_num) (by norm_num)
    (by norm_num)
  obtain ⟨a5, b5⟩ := sqrt_between 1320000 1148 1149 (by norm_num) (by norm_num) (by norm_num)
    (by norm_num)
  have p0 : (0 : ℝ) < Real.sqrt 1460000 := by linarith
  have p1 : (0 : ℝ) < Real.sqrt 1060000 := by linarith
  have p2 : (0 : ℝ) < Real.sqrt 1180000 := by linarith
  have p3 : (0 : ℝ) < Real.sqrt 1340000 := by linarith
  have p4 : (0 : ℝ) < Real.sqrt 1200000 := by linarith
  have p5 : (0 : ℝ) < Real.sqrt 1320000 := by linarith
  refine ⟨?_, ?_, ⟨?_, ?_⟩, ⟨?_, ?_⟩, ⟨?_, ?_⟩, ⟨?_, ?_⟩⟩
  · rw [div_lt_iff₀ p0]; linarith
  · rw [lt_div_iff₀ p1]; linarith
  · rw [lt_div_iff₀ p2]; linarith
  · rw [div_lt_iff₀ p2]; linarith
  · rw [lt_div_iff₀ p3]; linarith
  · rw [div_lt_iff₀ p3]; linarith
  · rw [lt_div_iff₀ p4]; linarith
  · rw [div_lt_iff₀ p4]; linarith
  · rw [lt_div_iff₀ p5]; linarith
  · rw [div_lt_iff₀ p5]; linarith

section SixFacesSort

variable {K : Type} [LinearOrderedField K]

theorem pairNotAfter_of_lt (a b : K × Nat) (h : a.1 < b.1) : pairNotAfter a b :=
  (pairNotAfter_iff a b).mpr (Or.inl h)

theorem not_pairNotAfter_of_lt (a b : K × Nat) (h : a.1 < b.1) : ¬ pairNotAfter b a := by
  rw [pairNotAfter_iff]
  rintro (h' | ⟨h', _⟩)
  · exact lt_asymm h h'
  · rw [h'] at h; exact lt_irrefl _ h

theorem stdSort_six (s0 s1 s2 s3 s4 s5 : K) (h03 : s0 < s3) (h35 : s3 < s5) (h54 : s5 < s4)
    (h42 : s4 < s2) (h21 : s2 < s1) :
    stdSort [(s0, 0), (s1, 1), (s2, 2), (s3, 3), (s4, 4), (s5, 5)] =
      [(s0, 0), (s3, 3), (s5, 5), (s4, 4), (s2, 2), (s1, 1)] := by
  have a45 : ¬ pairNotAfter (s4, 4) (s5, 5) := not_pairNotAfter_of_lt _ _ h54
  have a35 : pairNotAfter (s3, 3) (s5, 5) := pairNotAfter_of_lt _ _ h35
  have a23 : ¬ pairNotAfter (s2, 2) (s3, 3) :=
    not_pairNotAfter_of_lt _ _ (h35.trans (h54.trans h42))
  have a25 : ¬ pairNotAfter (s2, 2) (s5, 5) := not_pairNotAfter_of_lt _ _ (h54.trans h42)
  have a24 : ¬ pairNotAfter (s2, 2) (s4, 4) := not_pairNotAfter_of_lt _ _ h42
  have a13 : ¬ pairNotAfter (s1, 1) (s3, 3) :=
    not_pairNotAfter_of_lt _ _ (h35.trans (h54.trans (h42.trans h21)))
  have a15 : ¬ pairNotAfter (s1, 1) (s5, 5) :=
    not_pairNotAfter_of_lt _ _ (h54.trans (h42.trans h21))
  have a14 : ¬ pairNotAfter (s1, 1) (s4, 4) := not_pairNotAfter_of_lt _ _ (h42.trans h21)
  have a12 : ¬ pairNotAfter (s1, 1) (s2, 2) := not_pairNotAfter_of_lt _ _ h21
  have a03 : pairNotAfter (s0, 0) (s3, 3) := pairNotAfter_of_lt _ _ h03
  simp only [stdSort, List.insertionSort, List.orderedInsert, a45, a35, a23, a25, a24, a13, a15,
    a14, a12, a03, if_true, if_false]

end SixFacesSort

section SixFaces

variable {K : Type} [LinearOrderedField K] [FloorRing K]

theorem paintLoop_six (tv : List (QVector3D K)) (faces : List (List Int))
    (hinv : faceInvariant tv.length faces) (hlen : faces.length = 6)
    (s0 s1 s2 s3 s4 s5 : K) (h0 : s0 ≤ -(3 / 10)) (h3 : s3 ≤ -(3 / 10)) (h5 : s5 ≤ -(3 / 10))
    (h4 : -(3 / 10) < s4) (h2 : -(3 / 10) < s2) (h1 : 3 / 10 ≤ s1) :
    ∃ p4 p2 p1 : PaintedFace K,
      paintLoop tv faces [(s0, 0), (s3, 3), (s5, 5), (s4, 4), (s2, 2), (s1, 1)] =
        some [p4, p2, p1] ∧
      p4.faceIndex = 4 ∧ p2.faceIndex = 2 ∧ p1.faceIndex = 1 ∧ p1.visibility = s1 ∧
      p1.alpha = 255 ∧ p1.color = (0, 255, 0) := by
  obtain ⟨painted, hrun, hkeys, hprops⟩ := paintLoop_some tv faces hinv
    [(s0, 0), (s3, 3), (s5, 5), (s4, 4), (s2, 2), (s1, 1)] (by simp [hlen])
  have h1' : -(3 / 10) < s1 := lt_of_lt_of_le (by norm_num) h1
  simp only [List.filter, not_lt.mpr h0, not_lt.mpr h3, not_lt.mpr h5, h4, h2, h1',
    decide_True, decide_False] at hkeys
  rcases painted with _ | ⟨a, _ | ⟨b, _ | ⟨c, _ | ⟨d, rest⟩⟩⟩⟩
  · simp at hkeys
  · simp at hkeys
  · simp at hkeys
  · simp only [List.map_cons, List.map_nil, List.cons.injEq, Prod.mk.injEq, and_true] at hkeys
    obtain ⟨⟨_, ha⟩, ⟨_, hb⟩, hcv, hc⟩ := hkeys
    have hp := hprops c (by simp)
    refine ⟨a, b, c, hrun, ha, hb, hc, hcv, ?_, ?_⟩
    · rw [hp.1, hcv, calculateAlpha_high s1 h1]
    · rw [hp.2, hc]; rfl
  · simp at hkeys

end SixFaces

theorem identity_faceVisibility :
    faceVisibilityLoop realMath (transformVertices realMath 800 600 MainWindow.new) 0
        (MainWindow.new : MainWindow ℝ).faces =
      some [(-1100 / Real.sqrt 1460000, 0), (900 / Real.sqrt 1060000, 1),
        (300 / Real.sqrt 1180000, 2), (-500 / Real.sqrt 1340000, 3),
        (200 / Real.sqrt 1200000, 4), (-400 / Real.sqrt 1320000, 5)] := by
  have hf : (MainWindow.new : MainWindow ℝ).faces = [[0, 3, 2, 1], [4, 5, 6, 7], [0, 4, 7, 3],
      [1, 2, 6, 5], [0, 1, 5, 4], [3, 7, 6, 2]] := rfl
  rw [transformVertices_identity_rotation, hf]
  have hg0 : gatherFace ([⟨300, 200, -100⟩, ⟨500, 200, -100⟩, ⟨500, 400, -100⟩,
      ⟨300, 400, -100⟩, ⟨300, 200, 100⟩, ⟨500, 200, 100⟩, ⟨500, 400, 100⟩, ⟨300, 400, 100⟩] :
      List (QVector3D ℝ)) [0, 3, 2, 1] = some [⟨300, 200, -100⟩, ⟨300, 400, -100⟩,
      ⟨500, 400, -100⟩, ⟨500, 200, -100⟩] := rfl
  have hg1 : gatherFace ([⟨300, 200, -100⟩, ⟨500, 200, -100⟩, ⟨500, 400, -100⟩,
      ⟨300, 400, -100⟩, ⟨300, 200, 100⟩, ⟨500, 200, 100⟩, ⟨500, 400, 100⟩, ⟨300, 400, 100⟩] :
      List (QVector3D ℝ)) [4, 5, 6, 7] = some [⟨300, 200, 100⟩, ⟨500, 200, 100⟩,
      ⟨500, 400, 100⟩, ⟨300, 400, 100⟩] := rfl
  have hg2 : gatherFace ([⟨300, 200, -100⟩, ⟨500, 200, -100⟩, ⟨500, 400, -100⟩,
      ⟨300, 400, -100⟩, ⟨300, 200, 100⟩, ⟨500, 200, 100⟩, ⟨500, 400, 100⟩, ⟨300, 400, 100⟩] :
      List (QVector3D ℝ)) [0, 4, 7, 3] = some [⟨300, 200, -100⟩, ⟨300, 200, 100⟩,
      ⟨300, 400, 100⟩, ⟨300, 400, -100⟩] := rfl
  have hg3 : gatherFace ([⟨300, 200, -100⟩, ⟨500, 200, -100⟩, ⟨500, 400, -100⟩,
      ⟨300, 400, -100⟩, ⟨300, 200, 100⟩, ⟨500, 200, 100⟩, ⟨500, 400, 100⟩, ⟨300, 400, 100⟩] :
      List (QVector3D ℝ)) [1, 2, 6, 5] = some [⟨500, 200, -100⟩, ⟨500, 400, -100⟩,
      ⟨500, 400, 100⟩, ⟨500, 200, 100⟩] := rfl
  have hg4 : gatherFace ([⟨300, 200, -100⟩, ⟨500, 200, -100⟩, ⟨500, 400, -100⟩,
      ⟨300, 400, -100⟩, ⟨300, 200, 100⟩, ⟨500, 200, 100⟩, ⟨500, 400, 100⟩, ⟨300, 400, 100⟩] :
      List (QVector3D ℝ)) [0, 1, 5, 4] = some [⟨300, 200, -100⟩, ⟨500, 200, -100⟩,
      ⟨500, 200, 100⟩, ⟨300, 200, 100⟩] := rfl
  have hg5 : gatherFace ([⟨300, 200, -100⟩, ⟨500, 200, -100⟩, ⟨500, 400, -100⟩,
      ⟨300, 400, -100⟩, ⟨300, 200, 100⟩, ⟨500, 200, 100⟩, ⟨500, 400, 100⟩, ⟨300, 400, 100⟩] :
      List (QVector3D ℝ)) [3, 7, 6, 2] = some [⟨300, 400, -100⟩, ⟨300, 400, 100⟩,
      ⟨500, 400, 100⟩, ⟨500, 400, -100⟩] := rfl
  simp only [faceVisibilityLoop, hg0, hg1, hg2, hg3, hg4, hg5, identity_score_0,
    identity_score_1, identity_score_2, identity_score_3, identity_score_4, identity_score_5,
    Option.bind_eq_bind, Option.some_bind, pure]

/-- C5: identity-rotation scenario. For the freshly constructed window (angles `0`, cube of
half-extent `100`) drawn in an 800x600 widget, face `1` has the strictly highest score of the
six faces, is the last face painted, with alpha `255` and base colour `(0, 255, 0)`; face `0` has
the strictly lowest score, that score is `≤ -0.3`, and face `0` is not painted. -/
theorem drawCube_identity_scenario :
    ∃ (s0 s1 s2 s3 s4 s5 : ℝ) (painted : List (PaintedFace ℝ)) (last : PaintedFace ℝ),
      ((MainWindow.new : MainWindow ℝ).angleX = 0 ∧ (MainWindow.new : MainWindow ℝ).angleY = 0 ∧
        (MainWindow.new : MainWindow ℝ).angleZ = 0) ∧
      faceVisibilityLoop realMath (transformVertices realMath 800 600 MainWindow.new) 0
          (MainWindow.new : MainWindow ℝ).faces =
        some [(s0, 0), (s1, 1), (s2, 2), (s3, 3), (s4, 4), (s5, 5)] ∧
      (s0 < s1 ∧ s2 < s1 ∧ s3 < s1 ∧ s4 < s1 ∧ s5 < s1) ∧
      (s0 < s2 ∧ s0 < s3 ∧ s0 < s4 ∧ s0 < s5) ∧
      s0 ≤ -(3 / 10) ∧
      drawCube realMath 800 600 (MainWindow.new : MainWindow ℝ) = some painted ∧
      painted.getLast? = some last ∧
      last.faceIndex = 1 ∧ last.visibility = s1 ∧ last.alpha = 255 ∧ last.color = (0, 255, 0) ∧
      (∀ p ∈ painted, p.faceIndex ≠ 0) ∧
      painted.map PaintedFace.faceIndex = [4, 2, 1] := by
  obtain ⟨b0, b1, ⟨b2, b2'⟩, ⟨b3, b3'⟩, ⟨b4, b4'⟩, ⟨b5, b5'⟩⟩ := identity_score_bounds
  have hinv : faceInvariant (transformVertices realMath 800 600
      (MainWindow.new : MainWindow ℝ)).length (MainWindow.new : MainWindow ℝ).faces := by
    rw [transformVertices_length]
    exact initCube_faceInvariant _
  obtain ⟨p4, p2, p1, hrun, hi4, hi2, hi1, hv1, ha1, hc1⟩ :=
    paintLoop_six _ _ hinv rfl (-1100 / Real.sqrt 1460000) (900 / Real.sqrt 1060000)
      (300 / Real.sqrt 1180000) (-500 / Real.sqrt 1340000) (200 / Real.sqrt 1200000)
      (-400 / Real.sqrt 1320000) (by linarith) (by linarith) (by linarith) (by linarith)
      (by linarith) (by linarith)
  refine ⟨_, _, _, _, _, _, [p4, p2, p1], p1, ⟨rfl, rfl, rfl⟩, identity_faceVisibility,
    ⟨by linarith, by linarith, by linarith, by linarith, by linarith⟩,
    ⟨by linarith, by linarith, by linarith, by linarith⟩, by linarith, ?_, rfl, hi1, hv1, ha1,
    hc1, ?_, ?_⟩
  · simp only [drawCube, identity_faceVisibility, Option.bind_eq_bind, Option.some_bind]
    rw [stdSort_six _ _ _ _ _ _ (by linarith) (by linarith) (by linarith) (by linarith)
      (by linarith)]
    exact hrun
  · intro p hp
    simp only [List.mem_cons, List.mem_singleton, List.not_mem_nil, or_false] at hp
    rcases hp with rfl | rfl | rfl
    · rw [hi4]; decide
    · rw [hi2]; decide
    · rw [hi1]; decide
  · simp [hi4, hi2, hi1]

end PicTure
